import Mathlib

/-!
Verification of the XPAK archive codec.

A shallow embedding of the xpak tool (src/common.rs, src/pak.rs, src/unpak.rs,
src/metadata.rs, src/view_pak_structure.rs) over byte lists (`List Nat`, each
entry a byte value), together with theorems settling the specification claims.

Modelling conventions:
* Files and streams are `List Nat` byte sequences; `read_exact` failure (EOF)
  is `Option`/an explicit error, fallible operations return `Except`.
* `serde_json` serialization of the `XpakMetadata` struct is modelled by an
  executable injective codec `encodeMeta`/`decodeMeta` with a proved
  round-trip; the JSON text itself is never inspected by the program, only
  its length-prefixed byte block, so any faithful injective encoding gives
  the same observable behaviour.
* `serde_json::from_str` on user-supplied metadata strings is modelled by a
  recursive-descent JSON parser `jsonParse` over bytes.
* Filesystem writes performed by the unpacker and the updater are recorded in
  explicit effect traces.
-/

set_option maxRecDepth 100000

namespace Xpak

/-- 4-byte magic tag, ASCII XPAK (common.rs MAGIC_NUMBER). -/
def MAGIC : List Nat := [88, 80, 65, 75]

/-- 8-byte metadata end marker, ASCII METAEND_ (common.rs MAGIC_METADATA_END). -/
def METAEND : List Nat := [77, 69, 84, 65, 69, 78, 68, 95]

/-- 64 KiB buffering threshold (common.rs BUFFER_SIZE). -/
def BUFFER_SIZE : Nat := 65536

/-- Current format version, ASCII 1.3 (common.rs FORMAT_VERSION). -/
def formatVersion13 : List Nat := [49, 46, 51]

/-- Crate version string bytes (env CARGO_PKG_VERSION; the exact value is
irrelevant to every claim, we fix ASCII 0.1.0). -/
def cargoVersion : List Nat := [48, 46, 49, 46, 48]

/-- `(n as u32).to_le_bytes()`: 4 little-endian bytes of `n` modulo 2^32. -/
def u32le (n : Nat) : List Nat :=
  [n % 256, n / 256 % 256, n / 65536 % 256, n / 16777216 % 256]

/-- `u32::from_le_bytes` after a 4-byte `read_exact`; `none` models EOF. -/
def readU32 : List Nat → Option (Nat × List Nat)
  | a :: b :: c :: d :: r => some (a + 256 * b + 65536 * c + 16777216 * d, r)
  | _ => none

/-- `read_exact` of `k` bytes from the front of a stream; `none` models EOF. -/
def readBytes (k : Nat) (bs : List Nat) : Option (List Nat × List Nat) :=
  if k ≤ bs.length then some (bs.take k, bs.drop k) else none

theorem u32le_length (n : Nat) : (u32le n).length = 4 := rfl

theorem readU32_u32le (n : Nat) (r : List Nat) :
    readU32 (u32le n ++ r) = some (n % 4294967296, r) := by
  have h : n % 256 + 256 * (n / 256 % 256) + 65536 * (n / 65536 % 256)
      + 16777216 * (n / 16777216 % 256) = n % 4294967296 := by omega
  simp [u32le, readU32, h]

theorem readBytes_exact {k : Nat} (xs r : List Nat) (h : xs.length = k) :
    readBytes k (xs ++ r) = some (xs, r) := by
  subst h
  simp [readBytes, List.take_left, List.drop_left]

theorem readBytes_all (xs : List Nat) :
    readBytes xs.length xs = some (xs, []) := by
  have h : readBytes xs.length (xs ++ []) = some (xs, []) := readBytes_exact xs [] rfl
  simpa using h

theorem readBytes_magic (r : List Nat) : readBytes 4 (MAGIC ++ r) = some (MAGIC, r) :=
  readBytes_exact MAGIC r rfl

theorem readBytes_metaend (r : List Nat) : readBytes 8 (METAEND ++ r) = some (METAEND, r) :=
  readBytes_exact METAEND r rfl

/-! Section: Unbounded natural / byte-block codec

Models the `serde_json` encoding of the `XpakMetadata` struct: an executable
injective byte encoding with a proved decode-of-encode round trip.  Numbers
are stored as little-endian base-255 digit lists terminated by the byte 255.
-/

/-- Little-endian base-255 digits, fueled so that the recursion is structural
(the fuel is an upper bound on the number of digits; `natDigits` always
supplies enough). -/
def natDigitsF : Nat → Nat → List Nat
  | 0, _ => []
  | f + 1, n => if n = 0 then [] else (n % 255) :: natDigitsF f (n / 255)

/-- Canonical little-endian base-255 digits of `n`. -/
def natDigits (n : Nat) : List Nat := natDigitsF n n

def natOfDigits : List Nat → Nat
  | [] => 0
  | d :: ds => d + 255 * natOfDigits ds

/-- Terminated encoding of an unbounded natural number. -/
def encNat (n : Nat) : List Nat := natDigits n ++ [255]

def decNat : List Nat → Option (Nat × List Nat)
  | [] => none
  | b :: r =>
    if b = 255 then some (0, r)
    else
      match decNat r with
      | some (n, r2) => some (b + 255 * n, r2)
      | none => none

theorem natDigitsF_lt (f : Nat) : ∀ n, ∀ d ∈ natDigitsF f n, d < 255 := by
  induction f with
  | zero => intro n d hd; simp [natDigitsF] at hd
  | succ f ih =>
    intro n d hd
    by_cases hn : n = 0
    · simp [natDigitsF, hn] at hd
    · rw [natDigitsF, if_neg hn] at hd
      rcases List.mem_cons.mp hd with h | h
      · subst h; exact Nat.mod_lt _ (by decide)
      · exact ih (n / 255) d h

theorem natDigits_lt (n : Nat) : ∀ d ∈ natDigits n, d < 255 :=
  natDigitsF_lt n n

theorem natOfDigits_natDigitsF (f : Nat) :
    ∀ n, n ≤ f → natOfDigits (natDigitsF f n) = n := by
  induction f with
  | zero => intro n hn; interval_cases n; simp [natDigitsF, natOfDigits]
  | succ f ih =>
    intro n hn
    by_cases hz : n = 0
    · simp [natDigitsF, hz, natOfDigits]
    · rw [natDigitsF, if_neg hz, natOfDigits, ih (n / 255) (by omega)]
      omega

theorem natOfDigits_natDigits (n : Nat) : natOfDigits (natDigits n) = n :=
  natOfDigits_natDigitsF n n (Nat.le_refl n)

theorem decNat_digits (ds : List Nat) (hd : ∀ d ∈ ds, d < 255) (r : List Nat) :
    decNat (ds ++ 255 :: r) = some (natOfDigits ds, r) := by
  induction ds with
  | nil => simp [decNat, natOfDigits]
  | cons d ds ih =>
    have hdlt : d < 255 := hd d (List.mem_cons_self d ds)
    have : decNat (ds ++ 255 :: r) = some (natOfDigits ds, r) :=
      ih (fun x hx => hd x (List.mem_cons_of_mem d hx))
    simp [decNat, Nat.ne_of_lt hdlt, this, natOfDigits]

theorem decNat_encNat (n : Nat) (r : List Nat) :
    decNat (encNat n ++ r) = some (n, r) := by
  have h := decNat_digits (natDigits n) (natDigits_lt n) r
  simpa [encNat, natOfDigits_natDigits n] using h

/-- Length-prefixed byte block. -/
def encBytes (bs : List Nat) : List Nat := encNat bs.length ++ bs

def decBytes (s : List Nat) : Option (List Nat × List Nat) :=
  match decNat s with
  | some (k, r) => readBytes k r
  | none => none

theorem decBytes_encBytes (bs r : List Nat) :
    decBytes (encBytes bs ++ r) = some (bs, r) := by
  simp [encBytes, decBytes, decNat_encNat, readBytes_exact bs r rfl]

def encOptBytes : Option (List Nat) → List Nat
  | none => [0]
  | some bs => 1 :: encBytes bs

def decOptBytes : List Nat → Option (Option (List Nat) × List Nat)
  | 0 :: r => some (none, r)
  | 1 :: r =>
    match decBytes r with
    | some (bs, r2) => some (some bs, r2)
    | none => none
  | _ => none

theorem decOptBytes_encOptBytes (o : Option (List Nat)) (r : List Nat) :
    decOptBytes (encOptBytes o ++ r) = some (o, r) := by
  cases o with
  | none => simp [encOptBytes, decOptBytes]
  | some bs => simp [encOptBytes, decOptBytes, decBytes_encBytes]

def encListBy (f : α → List Nat) (xs : List α) : List Nat :=
  encNat xs.length ++ (xs.map f).flatten

def decListBy (g : List Nat → Option (α × List Nat)) : Nat → List Nat → Option (List α × List Nat)
  | 0, s => some ([], s)
  | k + 1, s =>
    match g s with
    | some (x, s1) =>
      match decListBy g k s1 with
      | some (xs, s2) => some (x :: xs, s2)
      | none => none
    | none => none

def decList (g : List Nat → Option (α × List Nat)) (s : List Nat) :
    Option (List α × List Nat) :=
  match decNat s with
  | some (k, r) => decListBy g k r
  | none => none

theorem decListBy_enc (f : α → List Nat) (g : List Nat → Option (α × List Nat))
    (xs : List α) (hg : ∀ x ∈ xs, ∀ r, g (f x ++ r) = some (x, r)) (r : List Nat) :
    decListBy g xs.length ((xs.map f).flatten ++ r) = some (xs, r) := by
  induction xs with
  | nil => simp [decListBy]
  | cons x xs ih =>
    have hx := hg x (List.mem_cons_self x xs)
    have ih2 := ih (fun y hy => hg y (List.mem_cons_of_mem x hy))
    simp [decListBy, hx, ih2]

theorem decList_enc (f : α → List Nat) (g : List Nat → Option (α × List Nat))
    (xs : List α) (hg : ∀ x ∈ xs, ∀ r, g (f x ++ r) = some (x, r)) (r : List Nat) :
    decList g (encListBy f xs ++ r) = some (xs, r) := by
  simp [decList, encListBy, decNat_encNat, decListBy_enc f g xs hg]

/-! Section: Metadata model (metadata.rs `FileInfo`, `XpakMetadata`) -/

/-- One entry of the embedded file index (metadata.rs `FileInfo`).
The path is stored as the UTF-8 bytes of the forward-slash-normalized path. -/
structure FileInfo where
  path : List Nat
  size : Nat
deriving DecidableEq

/-- The metadata header struct (metadata.rs `XpakMetadata`).  `created_at` is
an abstract timestamp; `common` maps keys to opaque serialized JSON values
(modelling `HashMap<String, serde_json::Value>`). -/
structure XpakMetadata where
  version : List Nat
  format_version : List Nat
  created_at : Nat
  files_count : Nat
  total_size : Nat
  description : Option (List Nat)
  common : List (List Nat × List Nat)
  files : List FileInfo
deriving DecidableEq

/-- `XpakMetadata::new(files_count, total_size)` (metadata.rs:60-71). -/
def XpakMetadata.new (files_count total_size now : Nat) : XpakMetadata :=
  { version := cargoVersion
    format_version := formatVersion13
    created_at := now
    files_count := files_count
    total_size := total_size
    description := none
    common := []
    files := [] }

def encFileInfo (f : FileInfo) : List Nat := encBytes f.path ++ encNat f.size

def decFileInfo (s : List Nat) : Option (FileInfo × List Nat) :=
  match decBytes s with
  | some (p, s1) =>
    match decNat s1 with
    | some (n, s2) => if n < 18446744073709551616 then some (⟨p, n⟩, s2) else none
    | none => none
  | none => none

theorem decFileInfo_enc (f : FileInfo) (r : List Nat) (h : f.size < 18446744073709551616) :
    decFileInfo (encFileInfo f ++ r) = some (f, r) := by
  simp [encFileInfo, decFileInfo, decBytes_encBytes, decNat_encNat, h]

def encPairBytes (p : List Nat × List Nat) : List Nat := encBytes p.1 ++ encBytes p.2

def decPairBytes (s : List Nat) : Option ((List Nat × List Nat) × List Nat) :=
  match decBytes s with
  | some (k, s1) =>
    match decBytes s1 with
    | some (v, s2) => some ((k, v), s2)
    | none => none
  | none => none

theorem decPairBytes_enc (p : List Nat × List Nat) (r : List Nat) :
    decPairBytes (encPairBytes p ++ r) = some (p, r) := by
  simp [encPairBytes, decPairBytes, decBytes_encBytes]

/-- Serialization of the metadata struct (models `serde_json::to_vec`).  An
injective executable byte encoding; the program only ever treats the
serialized metadata as an opaque length-prefixed block. -/
def encodeMeta (m : XpakMetadata) : List Nat :=
  encBytes m.version ++ encBytes m.format_version ++ encNat m.created_at ++
    encNat m.files_count ++ encNat m.total_size ++ encOptBytes m.description ++
    encListBy encPairBytes m.common ++ encListBy encFileInfo m.files

/-- Deserialization of the metadata struct (models
`serde_json::from_slice::<XpakMetadata>`): requires full consumption of the
block and enforces the struct's `u32`/`u64` field ranges. -/
def decodeMeta (s : List Nat) : Option XpakMetadata :=
  match decBytes s with
  | some (ver, s1) =>
    match decBytes s1 with
    | some (fv, s2) =>
      match decNat s2 with
      | some (ca, s3) =>
        match decNat s3 with
        | some (fc, s4) =>
          match decNat s4 with
          | some (ts, s5) =>
            match decOptBytes s5 with
            | some (d, s6) =>
              match decList decPairBytes s6 with
              | some (cm, s7) =>
                match decList decFileInfo s7 with
                | some (fs, s8) =>
                  if fc < 4294967296 ∧ ts < 18446744073709551616 ∧ s8 = [] then
                    some ⟨ver, fv, ca, fc, ts, d, cm, fs⟩
                  else none
                | none => none
              | none => none
            | none => none
          | none => none
        | none => none
      | none => none
    | none => none
  | none => none

theorem decodeMeta_encodeMeta (m : XpakMetadata)
    (hfc : m.files_count < 4294967296) (hts : m.total_size < 18446744073709551616)
    (hfs : ∀ f ∈ m.files, f.size < 18446744073709551616) :
    decodeMeta (encodeMeta m) = some m := by
  obtain ⟨ver, fv, ca, fc, ts, d, cm, fs⟩ := m
  have hfi : ∀ x ∈ fs, ∀ r, decFileInfo (encFileInfo x ++ r) = some (x, r) :=
    fun x hx r => decFileInfo_enc x r (hfs x hx)
  have hlast : decList decFileInfo (encListBy encFileInfo fs ++ []) = some (fs, []) :=
    decList_enc encFileInfo decFileInfo fs hfi []
  rw [List.append_nil] at hlast
  have hcm : decList decPairBytes
      (encListBy encPairBytes cm ++ encListBy encFileInfo fs) = some (cm, encListBy encFileInfo fs) :=
    decList_enc encPairBytes decPairBytes cm (fun x _ r => decPairBytes_enc x r) _
  simp only [encodeMeta, decodeMeta, List.append_assoc]
  simp only [decBytes_encBytes, decNat_encNat, decOptBytes_encOptBytes, hcm, hlast]
  simp_all

/-! Section: UTF-8 validation (models `String::from_utf8` / `str::from_utf8`) -/

/-- A UTF-8 continuation byte: 10xxxxxx. -/
def utf8Cont (b : Nat) : Bool := if 128 ≤ b ∧ b ≤ 191 then true else false

/-- Fueled RFC 3629 well-formedness check; the fuel is an upper bound on the
number of encoded code points (`validUtf8` supplies the list length). -/
def validUtf8F : Nat → List Nat → Bool
  | 0, l => l.isEmpty
  | _ + 1, [] => true
  | f + 1, b :: rest =>
    if b ≤ 127 then validUtf8F f rest
    else if 194 ≤ b ∧ b ≤ 223 then
      match rest with
      | c1 :: r => utf8Cont c1 && validUtf8F f r
      | [] => false
    else if b = 224 then
      match rest with
      | c1 :: c2 :: r =>
        (if 160 ≤ c1 ∧ c1 ≤ 191 then true else false) && utf8Cont c2 && validUtf8F f r
      | _ => false
    else if (225 ≤ b ∧ b ≤ 236) ∨ b = 238 ∨ b = 239 then
      match rest with
      | c1 :: c2 :: r => utf8Cont c1 && utf8Cont c2 && validUtf8F f r
      | _ => false
    else if b = 237 then
      match rest with
      | c1 :: c2 :: r =>
        (if 128 ≤ c1 ∧ c1 ≤ 159 then true else false) && utf8Cont c2 && validUtf8F f r
      | _ => false
    else if b = 240 then
      match rest with
      | c1 :: c2 :: c3 :: r =>
        (if 144 ≤ c1 ∧ c1 ≤ 191 then true else false) && utf8Cont c2 && utf8Cont c3 && validUtf8F f r
      | _ => false
    else if 241 ≤ b ∧ b ≤ 243 then
      match rest with
      | c1 :: c2 :: c3 :: r => utf8Cont c1 && utf8Cont c2 && utf8Cont c3 && validUtf8F f r
      | _ => false
    else if b = 244 then
      match rest with
      | c1 :: c2 :: c3 :: r =>
        (if 128 ≤ c1 ∧ c1 ≤ 143 then true else false) && utf8Cont c2 && utf8Cont c3 && validUtf8F f r
      | _ => false
    else false

/-- RFC 3629 well-formedness of a byte sequence, as checked by Rust's
`String::from_utf8` (rejects overlong forms, surrogates, and values above
U+10FFFF). -/
def validUtf8 (bs : List Nat) : Bool := validUtf8F bs.length bs

theorem validUtf8F_ascii (f : Nat) :
    ∀ bs : List Nat, bs.length ≤ f → (∀ b ∈ bs, b ≤ 127) → validUtf8F f bs = true := by
  induction f with
  | zero =>
    intro bs hlen _
    have : bs = [] := List.eq_nil_of_length_eq_zero (Nat.le_zero.mp hlen)
    simp [this, validUtf8F]
  | succ f ih =>
    intro bs hlen h
    cases bs with
    | nil => rfl
    | cons b r =>
      have hb : b ≤ 127 := h b (List.mem_cons_self b r)
      show (if b ≤ 127 then validUtf8F f r else _) = true
      rw [if_pos hb]
      exact ih r (by simpa using Nat.succ_le_succ_iff.mp hlen)
        (fun x hx => h x (List.mem_cons_of_mem b hx))

/-- ASCII byte lists are valid UTF-8. -/
theorem validUtf8_ascii (bs : List Nat) (h : ∀ b ∈ bs, b ≤ 127) : validUtf8 bs = true :=
  validUtf8F_ascii bs.length bs (Nat.le_refl _) h

/-! Section: Base64 (models `base64::engine::general_purpose::STANDARD.decode`) -/

/-- Value of a base64 symbol (A-Z a-z 0-9 + /); `=` is handled as padding. -/
def b64Val (c : Nat) : Option Nat :=
  if 65 ≤ c ∧ c ≤ 90 then some (c - 65)
  else if 97 ≤ c ∧ c ≤ 122 then some (c - 71)
  else if 48 ≤ c ∧ c ≤ 57 then some (c + 4)
  else if c = 43 then some 62
  else if c = 47 then some 63
  else none

/-- Decode a sequence of 4-symbol quads; padding (`=`) is legal only in the
final quad and trailing bits must be zero (canonical encodings only), as the
strict `STANDARD` engine behaves. -/
def b64DecodeQuads : List Nat → Option (List Nat)
  | [] => some []
  | a :: b :: c :: d :: rest =>
    match b64Val a, b64Val b with
    | some va, some vb =>
      if rest.isEmpty ∧ c = 61 ∧ d = 61 then
        if vb % 16 = 0 then some [va * 4 + vb / 16] else none
      else if rest.isEmpty ∧ d = 61 then
        match b64Val c with
        | some vc => if vc % 4 = 0 then some [va * 4 + vb / 16, vb % 16 * 16 + vc / 4] else none
        | none => none
      else
        match b64Val c, b64Val d with
        | some vc, some vd =>
          match b64DecodeQuads rest with
          | some tail => some ([va * 4 + vb / 16, vb % 16 * 16 + vc / 4, vc % 4 * 64 + vd] ++ tail)
          | none => none
        | _, _ => none
    | _, _ => none
  | _ => none

def base64Decode (m : List Nat) : Option (List Nat) :=
  if m.length % 4 = 0 then b64DecodeQuads m else none

/-- `is_ascii_alphanumeric() || c == '+' || c == '/' || c == '='`
(pak.rs:55). -/
def isB64Char (c : Nat) : Bool :=
  if (65 ≤ c ∧ c ≤ 90) ∨ (97 ≤ c ∧ c ≤ 122) ∨ (48 ≤ c ∧ c ≤ 57) ∨ c = 43 ∨ c = 47 ∨ c = 61
  then true else false

/-- The base64-shape test of pak.rs:55: length divisible by 4 and only
base64-alphabet characters. -/
def b64Shaped (m : List Nat) : Bool :=
  if m.length % 4 = 0 then m.all isB64Char else false

/-! Section: JSON values and parsing (models `serde_json::Value` / `from_str`) -/

/-- JSON value tree.  Number tokens are kept as their raw character list; the
program never computes with numeric values of user metadata. -/
inductive Json where
  | null
  | boolv (b : Bool)
  | num (tok : List Nat)
  | str (s : List Nat)
  | arr (elems : List Json)
  | obj (fields : List (List Nat × Json))

/-- Opaque fueled serialization of a JSON value, used to store user-metadata
values in the `common` map (the stored bytes are never re-read by the
program, so only totality matters; callers supply fuel exceeding the value's
depth, which for parsed values is bounded by the input length). -/
def encJsonF : Nat → Json → List Nat
  | 0, _ => [7]
  | _ + 1, .null => [0]
  | _ + 1, .boolv false => [1]
  | _ + 1, .boolv true => [2]
  | _ + 1, .num t => 3 :: encBytes t
  | _ + 1, .str s => 4 :: encBytes s
  | f + 1, .arr xs => 5 :: (encNat xs.length ++ (xs.map (encJsonF f)).flatten)
  | f + 1, .obj kvs =>
    6 :: (encNat kvs.length ++ (kvs.map (fun p => encBytes p.1 ++ encJsonF f p.2)).flatten)

/-- JSON whitespace (space, tab, line feed, carriage return). -/
def isWs (c : Nat) : Bool := if c = 32 ∨ c = 9 ∨ c = 10 ∨ c = 13 then true else false

def skipWs (s : List Nat) : List Nat := s.dropWhile isWs

/-- Characters that may appear in a number token (loose model; the claims
never depend on numeric grammar details). -/
def isNumChar (c : Nat) : Bool :=
  if (48 ≤ c ∧ c ≤ 57) ∨ c = 45 ∨ c = 43 ∨ c = 46 ∨ c = 101 ∨ c = 69 then true else false

/-- Parse the remainder of a JSON string literal after the opening quote;
escape sequences are kept raw. -/
def parseStringBody : Nat → List Nat → Option (List Nat × List Nat)
  | 0, _ => none
  | _, [] => none
  | fuel + 1, c :: r =>
    if c = 34 then some ([], r)
    else if c = 92 then
      match r with
      | e :: r2 =>
        match parseStringBody fuel r2 with
        | some (acc, rest) => some (c :: e :: acc, rest)
        | none => none
      | [] => none
    else
      match parseStringBody fuel r with
      | some (acc, rest) => some (c :: acc, rest)
      | none => none

mutual

/-- Recursive-descent JSON value parser (fueled). -/
def parseValue : Nat → List Nat → Option (Json × List Nat)
  | 0, _ => none
  | fuel + 1, s =>
    match skipWs s with
    | [] => none
    | c :: r =>
      if c = 110 then
        match r with
        | 117 :: 108 :: 108 :: r2 => some (.null, r2)
        | _ => none
      else if c = 116 then
        match r with
        | 114 :: 117 :: 101 :: r2 => some (.boolv true, r2)
        | _ => none
      else if c = 102 then
        match r with
        | 97 :: 108 :: 115 :: 101 :: r2 => some (.boolv false, r2)
        | _ => none
      else if c = 34 then
        match parseStringBody (fuel + 1) r with
        | some (sb, r2) => some (.str sb, r2)
        | none => none
      else if c = 91 then
        match parseArrRest fuel r with
        | some (vs, r2) => some (.arr vs, r2)
        | none => none
      else if c = 123 then
        match parseObjRest fuel r with
        | some (kvs, r2) => some (.obj kvs, r2)
        | none => none
      else if isNumChar c then
        some (.num ((c :: r).takeWhile isNumChar), (c :: r).dropWhile isNumChar)
      else none

/-- Parse array elements after `[`, consuming the closing `]`. -/
def parseArrRest : Nat → List Nat → Option (List Json × List Nat)
  | 0, _ => none
  | fuel + 1, s =>
    match skipWs s with
    | 93 :: r => some ([], r)
    | _ =>
      match parseValue fuel s with
      | some (v, r1) =>
        match skipWs r1 with
        | 44 :: r2 =>
          match parseArrRest fuel r2 with
          | some (vs, r3) => if vs.isEmpty then none else some (v :: vs, r3)
          | none => none
        | 93 :: r2 => some ([v], r2)
        | _ => none
      | none => none

/-- Parse object fields after `{`, consuming the closing `}`. -/
def parseObjRest : Nat → List Nat → Option (List (List Nat × Json) × List Nat)
  | 0, _ => none
  | fuel + 1, s =>
    match skipWs s with
    | 125 :: r => some ([], r)
    | 34 :: r =>
      match parseStringBody (fuel + 1) r with
      | some (k, r1) =>
        match skipWs r1 with
        | 58 :: r2 =>
          match parseValue fuel r2 with
          | some (v, r3) =>
            match skipWs r3 with
            | 44 :: r4 =>
              match parseObjRest fuel r4 with
              | some (kvs, r5) => if kvs.isEmpty then none else some ((k, v) :: kvs, r5)
              | none => none
            | 125 :: r4 => some ([(k, v)], r4)
            | _ => none
          | none => none
        | _ => none
      | none => none
    | _ => none

end

/-- `serde_json::from_str`: parse one value, allowing only trailing
whitespace. -/
def jsonParse (s : List Nat) : Option Json :=
  match parseValue (s.length + 1) s with
  | some (v, rest) => if (skipWs rest).isEmpty then some v else none
  | none => none

/-! Section: Errors and effects -/

/-- Error outcomes of the archive operations.  The Rust code reports these as
`io::Error` values with distinct messages; each constructor corresponds to
one distinct failure site. -/
inductive XErr where
  /-- "Invalid file format" / "无效的文件格式": magic number mismatch. -/
  | notMagic
  /-- "无效的metadata结束标记/标志": end-marker mismatch. -/
  | badEnd
  /-- "文件数量不匹配": FileCount field differs from `metadata.files_count`. -/
  | countMismatch
  /-- serde parse failure of the metadata section. -/
  | metaParse
  /-- "Metadata error: …": `merge_user_metadata` rejected the user metadata. -/
  | metadataErr
  /-- "Invalid UTF-8 in decoded base64". -/
  | badUtf8Meta
  /-- invalid UTF-8 in an on-wire record path. -/
  | badPath
  /-- unexpected EOF during a `read_exact`. -/
  | eof
  /-- "操作被用户取消": cooperative cancellation. -/
  | cancelled
  /-- relative seek to a negative absolute position. -/
  | seekErr
  /-- modelling artifact: the fueled regeneration walk ran out of fuel
  (mirrors the possibility of a non-terminating scan on adversarial input). -/
  | fuelOut
deriving DecidableEq

instance exceptDecEq {ε α : Type} [DecidableEq ε] [DecidableEq α] :
    DecidableEq (Except ε α) := fun x y =>
  match x, y with
  | .error e1, .error e2 =>
    match decEq e1 e2 with
    | isTrue h => isTrue (by rw [h])
    | isFalse h => isFalse (fun hc => h (Except.error.inj hc))
  | .ok a1, .ok a2 =>
    match decEq a1 a2 with
    | isTrue h => isTrue (by rw [h])
    | isFalse h => isFalse (fun hc => h (Except.ok.inj hc))
  | .error _, .ok _ => isFalse (fun hc => Except.noConfusion hc)
  | .ok _, .error _ => isFalse (fun hc => Except.noConfusion hc)

/-- Filesystem effects of the unpacker, in order of occurrence. -/
inductive Eff where
  /-- `fs::create_dir_all(output_path)` (unpak.rs:19). -/
  | mkdirRoot
  /-- `fs::create_dir_all(parent)` for a record (unpak.rs:93-95). -/
  | mkdirParent (p : List Nat)
  /-- creation of the output file with the given archive-relative path and
  exact content bytes (unpak.rs:97-116). -/
  | write (p c : List Nat)
deriving DecidableEq

/-- Filesystem effects of the metadata updater. -/
inductive UEff where
  /-- creation of `input.tmp` with the given full contents. -/
  | writeTemp (bytes : List Nat)
  /-- `fs::rename(temp, input)` over the original archive. -/
  | renameOver
deriving DecidableEq

/-- The `(path, content)` pairs materialized by a run, in order. -/
def effWrites (effs : List Eff) : List (List Nat × List Nat) :=
  effs.foldr (fun e acc => match e with | .write p c => (p, c) :: acc | _ => acc) []

/-! Section: merge_user_metadata (metadata.rs:73-91) -/

/-- Insert-or-overwrite into the `common` association list (models
`HashMap::insert`; iteration order of the source map is irrelevant to every
claim). -/
def insertKV (m : List (List Nat × List Nat)) (k v : List Nat) : List (List Nat × List Nat) :=
  if m.any (fun p => p.1 = k) then m.map (fun p => if p.1 = k then (k, v) else p)
  else m ++ [(k, v)]

/-- `XpakMetadata::merge_user_metadata`: parse the user string as JSON; a
top-level object merges its fields into `common` key by key, anything else
is an error ("Metadata must be a JSON object" / "Failed to parse JSON"). -/
def merge_user_metadata (m : XpakMetadata) (user : List Nat) : Except XErr XpakMetadata :=
  match jsonParse user with
  | some (.obj kvs) =>
    .ok { m with
          common := kvs.foldl (fun acc p => insertKV acc p.1 (encJsonF (user.length + 1) p.2)) m.common }
  | some _ => .error .metadataErr
  | none => .error .metadataErr

/-! Section: Packer (pak.rs `pack_files`) -/

/-- Sum of the content sizes of the enumerated files (pak.rs:40-43). -/
def sumSizes (files : List (List Nat × List Nat)) : Nat :=
  (files.map (fun f => f.2.length)).sum

/-- `path.file_name()`: the final path component (after the last `/`). -/
def baseName (p : List Nat) : List Nat :=
  p.foldl (fun acc c => if c = 47 then [] else acc ++ [c]) []

/-- `FileInfo::new` path normalization: replace `\` by `/` (metadata.rs:23). -/
def normSlash (p : List Nat) : List Nat := p.map (fun c => if c = 92 then 47 else c)

/-- The path recorded for an entry: base name when flattening, else the
relative path (pak.rs:105-109, 157-161). -/
def entryPath (flat : Bool) (p : List Nat) : List Nat := if flat then baseName p else p

/-- One on-wire file record: 4-byte path length, path bytes, 4-byte content
length, content bytes (pak.rs:163-187).  The buffered and `io::copy` write
paths produce identical bytes, so a single concatenation models both. -/
def recordBytes (f : List Nat × List Nat) : List Nat :=
  u32le f.1.length ++ f.1 ++ u32le f.2.length ++ f.2

/-- First stage of user-metadata handling (pak.rs:55-76): base64-shaped input
is decoded (UTF-8 checked); a shaped-but-undecodable string falls back to the
raw text; unshaped input is used raw. -/
def decodeUserMeta (m : List Nat) : Except XErr (List Nat) :=
  if b64Shaped m then
    match base64Decode m with
    | some dec => if validUtf8 dec then .ok dec else .error .badUtf8Meta
    | none => .ok m
  else .ok m

/-- The metadata struct actually serialized into the archive
(pak.rs:94-113). Note `description` is populated from the *metadata*
argument (pak.rs:100), and `files_count` is the file count cast to `u32`. -/
def packMetaStruct (files : List (List Nat × List Nat)) (flat : Bool)
    (umeta : Option (List Nat)) (now : Nat) : XpakMetadata :=
  { version := cargoVersion
    format_version := formatVersion13
    created_at := now
    files_count := files.length % 4294967296
    total_size := sumSizes files
    description := umeta
    common := []
    files := files.map (fun f => ⟨normSlash (entryPath flat f.1), f.2.length⟩) }

/-- The record region written by the per-file loop (pak.rs:146-190), polling
the cancellation flag once before each file; on cancellation the partially
written output is deleted, so an error produces no archive bytes. -/
def packBody (flat : Bool) (running : Nat → Bool) : Nat → List (List Nat × List Nat) → Except XErr (List Nat)
  | _, [] => .ok []
  | i, f :: fs =>
    if running i = false then .error .cancelled
    else
      match packBody flat running (i + 1) fs with
      | .ok rest => .ok (recordBytes (entryPath flat f.1, f.2) ++ rest)
      | .error e => .error e

/-- The metadata struct written to the archive after the second merge of the
*raw* metadata argument (pak.rs:116-123). -/
def packedMeta (files : List (List Nat × List Nat)) (flat : Bool)
    (umeta : Option (List Nat)) (now : Nat) : Except XErr XpakMetadata :=
  match umeta with
  | some ms => merge_user_metadata (packMetaStruct files flat umeta now) ms
  | none => .ok (packMetaStruct files flat umeta now)

/-- The first validation block of pak.rs:46-85: merges the decoded user
metadata into a struct that is subsequently discarded — only its errors are
observable. -/
def packValidate (files : List (List Nat × List Nat))
    (description umeta : Option (List Nat)) (now : Nat) : Except XErr Unit :=
  match umeta with
  | none => .ok ()
  | some ms =>
    match decodeUserMeta ms with
    | .error e => .error e
    | .ok user =>
      let dummy :=
        match description with
        | some d => { XpakMetadata.new (files.length % 4294967296) (sumSizes files) now with
                      description := some d }
        | none => XpakMetadata.new (files.length % 4294967296) (sumSizes files) now
      match merge_user_metadata dummy user with
      | .error e => .error e
      | .ok _ => .ok ()

/-- `pack_files` (pak.rs:15-197).  `files` is the directory enumeration as
`(relative path bytes, content bytes)` pairs; the output-archive bytes are
returned.  The struct actually written merges the *raw* metadata argument
(pak.rs:116-123). -/
def pack_files (files : List (List Nat × List Nat)) (flat : Bool)
    (description umeta : Option (List Nat)) (now : Nat) (running : Nat → Bool) :
    Except XErr (List Nat) :=
  match packValidate files description umeta now with
  | .error e => .error e
  | .ok _ =>
    match packedMeta files flat umeta now with
    | .error e => .error e
    | .ok m1 =>
      let mb := encodeMeta m1
      match packBody flat running 0 files with
      | .error e => .error e
      | .ok body =>
        .ok (MAGIC ++ u32le mb.length ++ mb ++ METAEND ++ u32le files.length ++ body)

/-! Section: Unpacker (unpak.rs `unpack_files`) -/

/-- The selection test of unpak.rs:91:
`selected_files.map_or(true, |files| files.iter().any(|f| path_str == *f))`. -/
def selMatch (sel : Option (List (List Nat))) (p : List Nat) : Bool :=
  match sel with
  | none => true
  | some fs => fs.any (fun f => p = f)

/-- Parent directory of an archive-relative path: the bytes before the last
`/` (empty when the path has a single component). -/
def parentDir (p : List Nat) : List Nat :=
  ((p.reverse.dropWhile (fun c => !(c = 47 : Bool))).drop 1).reverse

/-- The per-record loop of unpak.rs:70-124. For each of `n` records: poll
cancellation, read path length / path / content length; a selected record is
materialized (parent dirs created, content streamed — `io::copy` with `take`
for large contents, exact chunked reads otherwise), an unselected record's
content is skipped with a relative seek.  Returns the accumulated effects
and the `files_unpacked` counter. -/
def unpackLoop (sel : Option (List (List Nat))) (running : Nat → Bool) :
    Nat → Nat → List Nat → List Eff → Nat → List Eff × Except XErr Nat
  | 0, _, _, effs, k => (effs, .ok k)
  | n + 1, i, s, effs, k =>
    if running i = false then (effs, .error .cancelled)
    else
      match readU32 s with
      | none => (effs, .error .eof)
      | some (plen, s1) =>
        match readBytes plen s1 with
        | none => (effs, .error .eof)
        | some (p, s2) =>
          if validUtf8 p = false then (effs, .error .badPath)
          else
            match readU32 s2 with
            | none => (effs, .error .eof)
            | some (clen, s3) =>
              if selMatch sel p then
                if BUFFER_SIZE ≤ clen then
                  unpackLoop sel running n (i + 1) (s3.drop clen)
                    (effs ++ [.mkdirParent (parentDir p), .write p (s3.take clen)]) (k + 1)
                else
                  match readBytes clen s3 with
                  | none => (effs ++ [.mkdirParent (parentDir p)], .error .eof)
                  | some (c, s4) =>
                    unpackLoop sel running n (i + 1) s4
                      (effs ++ [.mkdirParent (parentDir p), .write p c]) (k + 1)
              else unpackLoop sel running n (i + 1) (s3.drop clen) effs k

/-- `unpack_files` (unpak.rs:12-129).  The output directory is created before
any validation (unpak.rs:19); then magic, metadata block, end marker, the
metadata parse, and the FileCount/`files_count` cross-check, then the record
loop. -/
def unpack_files (archive : List Nat) (sel : Option (List (List Nat)))
    (running : Nat → Bool) : List Eff × Except XErr Nat :=
  let effs := [Eff.mkdirRoot]
  match readBytes 4 archive with
  | none => (effs, .error .eof)
  | some (magic, s1) =>
    if magic ≠ MAGIC then (effs, .error .notMagic)
    else
      match readU32 s1 with
      | none => (effs, .error .eof)
      | some (mlen, s2) =>
        match readBytes mlen s2 with
        | none => (effs, .error .eof)
        | some (mb, s3) =>
          match readBytes 8 s3 with
          | none => (effs, .error .eof)
          | some (em, s4) =>
            if em ≠ METAEND then (effs, .error .badEnd)
            else
              match decodeMeta mb with
              | none => (effs, .error .metaParse)
              | some m =>
                match readU32 s4 with
                | none => (effs, .error .eof)
                | some (count, s5) =>
                  if count ≠ m.files_count then (effs, .error .countMismatch)
                  else unpackLoop sel running count 0 s5 effs 0

/-! Section: Lister (unpak.rs `list_files`) -/

/-- The exhaustive-scan loop (unpak.rs:221-242): per record read path length,
path (strict UTF-8), content length; accumulate `(path, size)` and the total
from the on-wire content lengths; skip content with a relative seek. -/
def listLoop : Nat → List Nat → List (List Nat × Nat) → Nat →
    Except XErr (List (List Nat × Nat) × Nat)
  | 0, _, acc, tot => .ok (acc, tot)
  | n + 1, s, acc, tot =>
    match readU32 s with
    | none => .error .eof
    | some (plen, s1) =>
      match readBytes plen s1 with
      | none => .error .eof
      | some (p, s2) =>
        if validUtf8 p = false then .error .badPath
        else
          match readU32 s2 with
          | none => .error .eof
          | some (clen, s3) => listLoop n (s3.drop clen) (acc ++ [(p, clen)]) (tot + clen)

/-- Full-scan listing (unpak.rs:183-247): magic, metadata length; when the
metadata block is nonempty it is skipped with a seek and the end marker is
required; then FileCount and the record walk.  Reports the `(path, size)`
table and a total computed purely from on-wire content lengths. -/
def listFull (bs : List Nat) : Except XErr (List (List Nat × Nat) × Nat) :=
  match readBytes 4 bs with
  | none => .error .eof
  | some (magic, s1) =>
    if magic ≠ MAGIC then .error .notMagic
    else
      match readU32 s1 with
      | none => .error .eof
      | some (mlen, s2) =>
        let afterMeta : Except XErr (List Nat) :=
          if mlen > 0 then
            match readBytes 8 (s2.drop mlen) with
            | none => .error .eof
            | some (em, s3) => if em ≠ METAEND then .error .badEnd else .ok s3
          else .ok s2
        match afterMeta with
        | .error e => .error e
        | .ok s3 =>
          match readU32 s3 with
          | none => .error .eof
          | some (count, s4) => listLoop count s4 [] 0

/-- `list_files` (unpak.rs:131-248).  Fast mode (`recheck = false`) reads
only the header when the metadata block is nonempty: it reports the embedded
`files` index and a headline total of `metadata.total_size + meta_len`
(unpak.rs:166); a metadata parse failure is an error.  With an empty
metadata block — or with `recheck = true` — the full scan runs instead. -/
def list_files (bs : List Nat) (recheck : Bool) :
    Except XErr (List (List Nat × Nat) × Nat) :=
  if recheck = false then
    match readBytes 4 bs with
    | none => .error .eof
    | some (magic, s1) =>
      if magic ≠ MAGIC then .error .notMagic
      else
        match readU32 s1 with
        | none => .error .eof
        | some (mlen, s2) =>
          if mlen > 0 then
            match readBytes mlen s2 with
            | none => .error .eof
            | some (mb, _) =>
              match decodeMeta mb with
              | none => .error .metaParse
              | some m => .ok (m.files.map (fun f => (f.path, f.size)), m.total_size + mlen)
          else listFull bs
  else listFull bs

/-! Section: Metadata updater (metadata.rs `update_metadata`) -/

/-- Little-endian value of a byte list (`uXX::from_le_bytes`). -/
def leVal (bs : List Nat) : Nat := bs.foldr (fun b acc => b + 256 * acc) 0

/-- Positioned `read_exact`: `k` bytes starting at `pos`, or EOF. -/
def readAt (bs : List Nat) (pos k : Nat) : Option (List Nat) :=
  if pos + k ≤ bs.length then some ((bs.drop pos).take k) else none

/-- The `regenerateAll` scan of metadata.rs:220-240, started at
`data_offset = 8 + meta_len + 8` — i.e. *at* the FileCount field — reading a
4-byte name length, the name (`from_utf8_lossy`, modelled as the identity on
byte lists), an **8-byte** size field, then seeking `size as i64` forward.
The loop breaks when the 4-byte length read hits EOF; EOF inside a record is
an error.  Fueled: a size ≥ 2^63 seeks backwards, so the walk need not
terminate on adversarial input. -/
def regenWalk (bs : List Nat) : Nat → Nat → List FileInfo → Nat →
    Except XErr (List FileInfo × Nat)
  | 0, _, _, _ => .error .fuelOut
  | fuel + 1, pos, acc, tot =>
    match readAt bs pos 4 with
    | none => .ok (acc, tot)
    | some nb =>
      let nameLen := leVal nb
      match readAt bs (pos + 4) nameLen with
      | none => .error .eof
      | some nameB =>
        match readAt bs (pos + 4 + nameLen) 8 with
        | none => .error .eof
        | some sb =>
          let size := leVal sb
          if size < 9223372036854775808 then
            regenWalk bs fuel (pos + 4 + nameLen + 8 + size)
              (acc ++ [⟨normSlash nameB, size⟩]) (tot + size)
          else
            if 18446744073709551616 - size ≤ pos + 4 + nameLen + 8 then
              regenWalk bs fuel (pos + 4 + nameLen + 8 - (18446744073709551616 - size))
                (acc ++ [⟨normSlash nameB, size⟩]) (tot + size)
            else .error .seekErr

/-- `update_metadata` (metadata.rs:180-328).  Validates magic, reads the
metadata block, requires the end marker *unconditionally*; with
`all = true` rebuilds the struct from `regenWalk`, otherwise re-parses the
embedded metadata; applies the description overwrite and the user-metadata
merge; then writes a temp file — new header followed by every original byte
from offset `16 + meta_len` — and renames it over the input.  Failures
before the temp-file creation leave no effects. -/
def update_metadata (archive : List Nat) (description umeta : Option (List Nat))
    (all : Bool) (now : Nat) : List UEff × Except XErr (List Nat) :=
  match readBytes 4 archive with
  | none => ([], .error .eof)
  | some (magic, s1) =>
    if magic ≠ MAGIC then ([], .error .notMagic)
    else
      match readU32 s1 with
      | none => ([], .error .eof)
      | some (mlen, s2) =>
        match readBytes mlen s2 with
        | none => ([], .error .eof)
        | some (mb, s3) =>
          match readBytes 8 s3 with
          | none => ([], .error .eof)
          | some (em, _) =>
            if em ≠ METAEND then ([], .error .badEnd)
            else
              let base : Except XErr XpakMetadata :=
                if all then
                  match regenWalk archive (archive.length + 1) (16 + mlen) [] 0 with
                  | .ok (fis, tot) =>
                    .ok { XpakMetadata.new (fis.length % 4294967296) tot now with files := fis }
                  | .error e => .error e
                else
                  match decodeMeta mb with
                  | some m => .ok m
                  | none => .error .metaParse
              match base with
              | .error e => ([], .error e)
              | .ok m0 =>
                let m1 :=
                  match description with
                  | some d => { m0 with description := some d }
                  | none => m0
                match (match umeta with
                       | some ms => merge_user_metadata m1 ms
                       | none => .ok m1) with
                | .error e => ([], .error e)
                | .ok m2 =>
                  let nm := encodeMeta m2
                  let out := MAGIC ++ u32le nm.length ++ nm ++ METAEND ++ archive.drop (16 + mlen)
                  ([UEff.writeTemp out, UEff.renameOver], .ok out)

/-! Section: Structure inspector (view_pak_structure.rs `view_structure`) -/

/-- The report printed by `view_structure`: magic validity, metadata section
length and fields, end-marker validity, and whether a missing marker is
excused as a legacy-version condition. -/
structure StructureReport where
  magicValid : Bool
  metaLen : Nat
  formatVersion : List Nat
  filesCount : Nat
  totalSize : Nat
  description : Option (List Nat)
  endValid : Bool
  /-- format version is one of 1.0 / 1.1 / 1.2, for which an invalid marker
  is reported as "此版本不支持Metadata End" instead of corruption
  (view_pak_structure.rs:73-77). -/
  endLegacy : Bool
deriving DecidableEq

def legacyVersions : List (List Nat) := [[49, 46, 48], [49, 46, 49], [49, 46, 50]]

/-- `view_structure` (view_pak_structure.rs:8-93): reads magic (recording
validity rather than failing), metadata length and block, parses the
metadata (a parse failure is an error via `?`), reads the 8 marker bytes and
records their validity; never fails because of a bad magic alone. -/
def view_structure (bs : List Nat) : Except XErr StructureReport :=
  match readBytes 4 bs with
  | none => .error .eof
  | some (magic, s1) =>
    match readU32 s1 with
    | none => .error .eof
    | some (mlen, s2) =>
      match readBytes mlen s2 with
      | none => .error .eof
      | some (mb, s3) =>
        match decodeMeta mb with
        | none => .error .metaParse
        | some m =>
          match readBytes 8 s3 with
          | none => .error .eof
          | some (em, _) =>
            .ok { magicValid := decide (magic = MAGIC)
                  metaLen := mlen
                  formatVersion := m.format_version
                  filesCount := m.files_count
                  totalSize := m.total_size
                  description := m.description
                  endValid := decide (em = METAEND)
                  endLegacy := legacyVersions.contains m.format_version }

/-! Section: display_metadata (metadata.rs:94-132) -/

/-- `display_metadata`: magic check, metadata length, empty block prints
"No metadata found", otherwise the block is read and parsed (failure is an
error); purely read-only. -/
def display_metadata (bs : List Nat) : Except XErr Unit :=
  match readBytes 4 bs with
  | none => .error .eof
  | some (magic, s1) =>
    if magic ≠ MAGIC then .error .notMagic
    else
      match readU32 s1 with
      | none => .error .eof
      | some (mlen, s2) =>
        if mlen = 0 then .ok ()
        else
          match readBytes mlen s2 with
          | none => .error .eof
          | some (mb, _) =>
            match decodeMeta mb with
            | none => .error .metaParse
            | some _ => .ok ()

/-! Section: Record-walk lemmas -/

/-- The full record region produced by packing `files` (without flattening
the wire paths differ from the input only when `flat = true`). -/
def recordsBytes (files : List (List Nat × List Nat)) : List Nat :=
  (files.map recordBytes).flatten

/-- Size/UTF-8 side conditions under which a record list round-trips through
the 4-byte wire fields. -/
def goodRecords (files : List (List Nat × List Nat)) : Prop :=
  ∀ f ∈ files, f.1.length < 4294967296 ∧ f.2.length < 4294967296 ∧ validUtf8 f.1 = true

instance (files : List (List Nat × List Nat)) : Decidable (goodRecords files) := by
  unfold goodRecords
  infer_instance

theorem unpackLoop_spec (sel : Option (List (List Nat)))
    (files : List (List Nat × List Nat)) (hb : goodRecords files) :
    ∀ (rest : List Nat) (i0 k0 : Nat) (effs0 : List Eff),
    unpackLoop sel (fun _ => true) files.length i0 (recordsBytes files ++ rest) effs0 k0 =
      (effs0 ++ (files.filter (fun f => selMatch sel f.1)).flatMap
          (fun f => [.mkdirParent (parentDir f.1), .write f.1 f.2]),
       .ok (k0 + (files.filter (fun f => selMatch sel f.1)).length)) := by
  induction files with
  | nil => intro rest i0 k0 effs0; simp [recordsBytes, unpackLoop]
  | cons f fs ih =>
    intro rest i0 k0 effs0
    obtain ⟨p, c⟩ := f
    obtain ⟨hplen, hclen, hputf⟩ := hb (p, c) (List.mem_cons_self _ _)
    have hfs : goodRecords fs := fun x hx => hb x (List.mem_cons_of_mem _ hx)
    have hstream : recordsBytes ((p, c) :: fs) ++ rest =
        u32le p.length ++ (p ++ (u32le c.length ++ (c ++ (recordsBytes fs ++ rest)))) := by
      simp [recordsBytes, recordBytes, List.append_assoc]
    rw [hstream, List.length_cons, unpackLoop]
    simp only [readU32_u32le, Nat.mod_eq_of_lt hplen, Nat.mod_eq_of_lt hclen,
      readBytes_exact p _ rfl, hputf, Bool.true_eq_false, if_false]
    by_cases hsel : selMatch sel (p, c).1
    · simp only [hsel, if_true]
      by_cases hbuf : BUFFER_SIZE ≤ c.length
      · rw [if_pos hbuf, List.drop_left, List.take_left, ih hfs _ _ _ _]
        simp [hsel, List.append_assoc]
        omega
      · rw [if_neg hbuf]
        simp only [readBytes_exact c _ rfl]
        rw [ih hfs _ _ _ _]
        simp [hsel, List.append_assoc]
        omega
    · simp only [hsel, if_false, Bool.false_eq_true]
      rw [List.drop_left, ih hfs _ _ _ _]
      simp [hsel]

theorem listLoop_spec (files : List (List Nat × List Nat)) (hb : goodRecords files) :
    ∀ (rest : List Nat) (acc0 : List (List Nat × Nat)) (tot0 : Nat),
    listLoop files.length (recordsBytes files ++ rest) acc0 tot0 =
      .ok (acc0 ++ files.map (fun f => (f.1, f.2.length)), tot0 + sumSizes files) := by
  induction files with
  | nil => intro rest acc0 tot0; simp [recordsBytes, listLoop, sumSizes]
  | cons f fs ih =>
    intro rest acc0 tot0
    obtain ⟨p, c⟩ := f
    obtain ⟨hplen, hclen, hputf⟩ := hb (p, c) (List.mem_cons_self _ _)
    have hfs : goodRecords fs := fun x hx => hb x (List.mem_cons_of_mem _ hx)
    have hstream : recordsBytes ((p, c) :: fs) ++ rest =
        u32le p.length ++ (p ++ (u32le c.length ++ (c ++ (recordsBytes fs ++ rest)))) := by
      simp [recordsBytes, recordBytes, List.append_assoc]
    rw [hstream, List.length_cons, listLoop]
    simp only [readU32_u32le, Nat.mod_eq_of_lt hplen, Nat.mod_eq_of_lt hclen,
      readBytes_exact p _ rfl, hputf, Bool.true_eq_false, if_false]
    rw [List.drop_left, ih hfs _ _ _]
    simp [sumSizes, List.append_assoc]
    omega

/-! Section: Packer support lemmas -/

theorem packBody_true (flat : Bool) (files : List (List Nat × List Nat)) :
    ∀ i, packBody flat (fun _ => true) i files =
      .ok ((files.map (fun f => recordBytes (entryPath flat f.1, f.2))).flatten) := by
  induction files with
  | nil => intro i; simp [packBody]
  | cons f fs ih => intro i; simp [packBody, ih (i + 1)]

/-- `packBody` succeeds only with the record region of its input list. -/
theorem packBody_ok (flat : Bool) (run : Nat → Bool) (files : List (List Nat × List Nat)) :
    ∀ i body, packBody flat run i files = .ok body →
      body = (files.map (fun f => recordBytes (entryPath flat f.1, f.2))).flatten := by
  induction files with
  | nil =>
    intro i body h
    obtain rfl : _ = body := Except.ok.inj h
    rfl
  | cons f fs ih =>
    intro i body h
    unfold packBody at h
    split at h
    · exact absurd h (by simp)
    · split at h
      · rename_i rest hrest
        obtain rfl : _ = body := Except.ok.inj h
        rw [ih (i + 1) rest hrest]
        simp
      · exact absurd h (by simp)

/-- `merge_user_metadata` changes only the `common` map. -/
theorem merge_fields (m : XpakMetadata) (u : List Nat) (m' : XpakMetadata)
    (h : merge_user_metadata m u = .ok m') :
    m'.version = m.version ∧ m'.format_version = m.format_version ∧
    m'.created_at = m.created_at ∧ m'.files_count = m.files_count ∧
    m'.total_size = m.total_size ∧ m'.description = m.description ∧
    m'.files = m.files := by
  unfold merge_user_metadata at h
  split at h
  · obtain rfl : _ = m' := Except.ok.inj h
    exact ⟨rfl, rfl, rfl, rfl, rfl, rfl, rfl⟩
  · exact absurd h (by simp)
  · exact absurd h (by simp)

/-- Success shape of `pack_files`: the archive is magic, length-prefixed
metadata, end marker, file count, then the record region. -/
theorem pack_files_ok (files : List (List Nat × List Nat)) (flat : Bool)
    (desc umeta : Option (List Nat)) (now : Nat) (run : Nat → Bool) (A : List Nat)
    (h : pack_files files flat desc umeta now run = .ok A) :
    ∃ m1, packedMeta files flat umeta now = .ok m1 ∧
      A = MAGIC ++ u32le (encodeMeta m1).length ++ encodeMeta m1 ++ METAEND ++
        u32le files.length ++
        (files.map (fun f => recordBytes (entryPath flat f.1, f.2))).flatten := by
  unfold pack_files at h
  split at h
  · exact absurd h (by simp)
  · split at h
    · exact absurd h (by simp)
    · rename_i m1 hm1
      split at h
      · exact absurd h (by simp)
      · rename_i body hbody
        obtain rfl : _ = A := Except.ok.inj h
        refine ⟨m1, hm1, ?_⟩
        rw [packBody_ok flat run files 0 body hbody]

theorem sumSizes_le (files : List (List Nat × List Nat))
    (h : ∀ f ∈ files, f.2.length < 4294967296) :
    sumSizes files ≤ files.length * 4294967295 := by
  induction files with
  | nil => simp [sumSizes]
  | cons f fs ih =>
    have h1 : f.2.length < 4294967296 := h f (List.mem_cons_self _ _)
    have h2 := ih (fun x hx => h x (List.mem_cons_of_mem _ hx))
    simp only [sumSizes, List.map_cons, List.sum_cons, List.length_cons] at h2 ⊢
    have : sumSizes fs = (fs.map (fun f => f.2.length)).sum := rfl
    omega

theorem sumSizes_lt_u64 (files : List (List Nat × List Nat))
    (h : ∀ f ∈ files, f.2.length < 4294967296) (hc : files.length < 4294967296) :
    sumSizes files < 18446744073709551616 := by
  have h1 := sumSizes_le files h
  have h2 : files.length * 4294967295 ≤ 4294967295 * 4294967295 :=
    Nat.mul_le_mul_right _ (by omega)
  omega

/-- Bounds needed for the metadata of a packed archive to round-trip. -/
theorem packedMeta_bounds (files : List (List Nat × List Nat)) (flat : Bool)
    (umeta : Option (List Nat)) (now : Nat) (m1 : XpakMetadata)
    (hgood : goodRecords files) (hcnt : files.length < 4294967296)
    (hm1 : packedMeta files flat umeta now = .ok m1) :
    m1.files_count < 4294967296 ∧ m1.total_size < 18446744073709551616 ∧
    ∀ f ∈ m1.files, f.size < 18446744073709551616 := by
  have hsizes : ∀ f ∈ files, f.2.length < 4294967296 := fun f hf => (hgood f hf).2.1
  have hbase : (packMetaStruct files flat umeta now).files_count < 4294967296 ∧
      (packMetaStruct files flat umeta now).total_size < 18446744073709551616 ∧
      ∀ f ∈ (packMetaStruct files flat umeta now).files, f.size < 18446744073709551616 := by
    refine ⟨Nat.mod_lt _ (by decide), sumSizes_lt_u64 files hsizes hcnt, ?_⟩
    intro f hf
    simp only [packMetaStruct, List.mem_map] at hf
    obtain ⟨x, hx, rfl⟩ := hf
    show x.2.length < 18446744073709551616
    have := hsizes x hx
    omega
  unfold packedMeta at hm1
  split at hm1
  · rename_i ms
    obtain ⟨_, _, _, h4, h5, _, h7⟩ := merge_fields _ _ _ hm1
    rw [h4, h5, h7]
    exact hbase
  · obtain rfl : _ = m1 := Except.ok.inj hm1
    exact hbase

/-! Section: Effect-trace lemmas -/

theorem effWrites_cons_write (p c : List Nat) (l : List Eff) :
    effWrites (.write p c :: l) = (p, c) :: effWrites l := rfl

theorem effWrites_cons_root (l : List Eff) :
    effWrites (.mkdirRoot :: l) = effWrites l := rfl

theorem effWrites_cons_parent (q : List Nat) (l : List Eff) :
    effWrites (.mkdirParent q :: l) = effWrites l := rfl

theorem effWrites_append (a b : List Eff) :
    effWrites (a ++ b) = effWrites a ++ effWrites b := by
  induction a with
  | nil => rfl
  | cons e a ih =>
    cases e with
    | mkdirRoot => simpa [effWrites_cons_root] using ih
    | mkdirParent q => simpa [effWrites_cons_parent] using ih
    | write p c => simp [effWrites_cons_write, ih]

theorem effWrites_flatMap (files : List (List Nat × List Nat)) :
    effWrites (files.flatMap fun f => [.mkdirParent (parentDir f.1), .write f.1 f.2]) =
      files := by
  induction files with
  | nil => rfl
  | cons f fs ih =>
    simp only [List.flatMap_cons, effWrites_append, ih]
    simp [effWrites_cons_parent, effWrites_cons_write, effWrites]

/-- Fields of the struct a successful pack serializes. -/
theorem packedMeta_fields (files : List (List Nat × List Nat)) (flat : Bool)
    (umeta : Option (List Nat)) (now : Nat) (m1 : XpakMetadata)
    (hm1 : packedMeta files flat umeta now = .ok m1) :
    m1.files_count = files.length % 4294967296 ∧
    m1.total_size = sumSizes files ∧
    m1.files = files.map (fun f => ⟨normSlash (entryPath flat f.1), f.2.length⟩) ∧
    m1.description = umeta ∧
    m1.format_version = formatVersion13 := by
  unfold packedMeta at hm1
  split at hm1
  · obtain ⟨_, h2, _, h4, h5, h6, h7⟩ := merge_fields _ _ _ hm1
    rw [h2, h4, h5, h6, h7]
    exact ⟨rfl, rfl, rfl, rfl, rfl⟩
  · obtain rfl : _ = m1 := Except.ok.inj hm1
    exact ⟨rfl, rfl, rfl, rfl, rfl⟩

/-- Behaviour of `unpack_files` on a well-formed archive: every selected
record (and only those) is materialized with its exact bytes, and the run
succeeds with the count of materialized files. -/
theorem unpack_wf (files : List (List Nat × List Nat)) (m : XpakMetadata)
    (sel : Option (List (List Nat)))
    (hgood : goodRecords files) (hcnt : files.length < 4294967296)
    (hfc : m.files_count = files.length)
    (hb1 : m.files_count < 4294967296) (hb2 : m.total_size < 18446744073709551616)
    (hb3 : ∀ f ∈ m.files, f.size < 18446744073709551616)
    (hL : (encodeMeta m).length < 4294967296) :
    unpack_files (MAGIC ++ u32le (encodeMeta m).length ++ encodeMeta m ++ METAEND ++
        u32le files.length ++ recordsBytes files) sel (fun _ => true) =
      ([Eff.mkdirRoot] ++ (files.filter (fun f => selMatch sel f.1)).flatMap
          (fun f => [.mkdirParent (parentDir f.1), .write f.1 f.2]),
       .ok ((files.filter (fun f => selMatch sel f.1)).length)) := by
  have hassoc : MAGIC ++ u32le (encodeMeta m).length ++ encodeMeta m ++ METAEND ++
      u32le files.length ++ recordsBytes files =
      MAGIC ++ (u32le (encodeMeta m).length ++ (encodeMeta m ++ (METAEND ++
        (u32le files.length ++ (recordsBytes files ++ []))))) := by
    simp [List.append_assoc]
  rw [hassoc]
  unfold unpack_files
  simp only [readBytes_magic, readU32_u32le, Nat.mod_eq_of_lt hL,
    readBytes_exact (encodeMeta m) _ rfl, readBytes_metaend,
    decodeMeta_encodeMeta m hb1 hb2 hb3, hfc, Nat.mod_eq_of_lt hcnt,
    unpackLoop_spec sel files hgood [] 0 0 [Eff.mkdirRoot]]
  simp

/-- The serialized metadata block is never empty. -/
theorem encodeMeta_length_pos (m : XpakMetadata) : 0 < (encodeMeta m).length := by
  simp [encodeMeta, encBytes, encNat]

/-- Full-scan listing of a well-formed archive reports the on-wire records
and the sum of their content lengths. -/
theorem listFull_wf (files : List (List Nat × List Nat)) (m : XpakMetadata)
    (hgood : goodRecords files) (hcnt : files.length < 4294967296)
    (hL : (encodeMeta m).length < 4294967296) :
    listFull (MAGIC ++ u32le (encodeMeta m).length ++ encodeMeta m ++ METAEND ++
        u32le files.length ++ recordsBytes files) =
      .ok (files.map (fun f => (f.1, f.2.length)), sumSizes files) := by
  have hassoc : MAGIC ++ u32le (encodeMeta m).length ++ encodeMeta m ++ METAEND ++
      u32le files.length ++ recordsBytes files =
      MAGIC ++ (u32le (encodeMeta m).length ++ (encodeMeta m ++ (METAEND ++
        (u32le files.length ++ (recordsBytes files ++ []))))) := by
    simp [List.append_assoc]
  rw [hassoc]
  unfold listFull
  simp only [readBytes_magic, readU32_u32le, Nat.mod_eq_of_lt hL,
    encodeMeta_length_pos m, List.drop_left, readBytes_metaend,
    Nat.mod_eq_of_lt hcnt]
  have h2 := listLoop_spec files hgood [] [] 0
  rw [List.append_nil] at h2
  simp [readU32_u32le, Nat.mod_eq_of_lt hcnt, h2]

/-- Fast-mode listing of a well-formed archive reports the embedded index
and a headline total of `metadata.total_size + meta_len`. -/
theorem listFast_wf (rest : List Nat) (m : XpakMetadata)
    (hb1 : m.files_count < 4294967296) (hb2 : m.total_size < 18446744073709551616)
    (hb3 : ∀ f ∈ m.files, f.size < 18446744073709551616)
    (hL : (encodeMeta m).length < 4294967296) :
    list_files (MAGIC ++ u32le (encodeMeta m).length ++ encodeMeta m ++ rest) false =
      .ok (m.files.map (fun f => (f.path, f.size)),
           m.total_size + (encodeMeta m).length) := by
  have hassoc : MAGIC ++ u32le (encodeMeta m).length ++ encodeMeta m ++ rest =
      MAGIC ++ (u32le (encodeMeta m).length ++ (encodeMeta m ++ rest)) := by
    simp [List.append_assoc]
  rw [hassoc]
  unfold list_files
  simp only [readBytes_magic, readU32_u32le, Nat.mod_eq_of_lt hL,
    encodeMeta_length_pos m, readBytes_exact (encodeMeta m) _ rfl,
    decodeMeta_encodeMeta m hb1 hb2 hb3]
  simp

/-! Section: A top-level JSON object requires an opening brace -/

theorem mem_of_mem_dropWhile {p : Nat → Bool} {a : Nat} :
    ∀ l : List Nat, a ∈ l.dropWhile p → a ∈ l := by
  intro l h
  induction l with
  | nil => simp at h
  | cons b t ih =>
    rw [List.dropWhile_cons] at h
    by_cases hb : p b = true
    · simp only [hb, if_true] at h
      exact List.mem_cons_of_mem b (ih h)
    · simp only [hb, if_false] at h
      simpa using h

/-- The parser yields a top-level object only when the input contains an
opening brace `{` (byte 123). -/
theorem parseValue_obj_brace (fuel : Nat) (s : List Nat) (kvs : List (List Nat × Json))
    (r : List Nat) (h : parseValue fuel s = some (.obj kvs, r)) : 123 ∈ s := by
  match fuel with
  | 0 => exact absurd h (by simp [parseValue])
  | f + 1 =>
    cases hws : skipWs s with
    | nil => rw [parseValue, hws] at h; exact absurd h (by simp)
    | cons c rr =>
      rw [parseValue, hws] at h
      dsimp only at h
      by_cases h1 : c = 110
      · rw [if_pos h1] at h
        split at h <;> simp_all
      · rw [if_neg h1] at h
        by_cases h2 : c = 116
        · rw [if_pos h2] at h
          split at h <;> simp_all
        · rw [if_neg h2] at h
          by_cases h3 : c = 102
          · rw [if_pos h3] at h
            split at h <;> simp_all
          · rw [if_neg h3] at h
            by_cases h4 : c = 34
            · rw [if_pos h4] at h
              split at h <;> simp_all
            · rw [if_neg h4] at h
              by_cases h5 : c = 91
              · rw [if_pos h5] at h
                split at h <;> simp_all
              · rw [if_neg h5] at h
                by_cases h6 : c = 123
                · have hc : c ∈ skipWs s := by rw [hws]; exact List.mem_cons_self c rr
                  have := mem_of_mem_dropWhile s hc
                  rw [h6] at this
                  exact this
                · rw [if_neg h6] at h
                  split at h <;> simp_all

/-- `jsonParse` yields a top-level object only when the input contains `{`. -/
theorem jsonParse_obj_brace (s : List Nat) (kvs : List (List Nat × Json))
    (h : jsonParse s = some (.obj kvs)) : 123 ∈ s := by
  unfold jsonParse at h
  split at h
  · rename_i v rest hv
    split at h
    · obtain rfl : v = Json.obj kvs := by simpa using h
      exact parseValue_obj_brace _ s kvs rest hv
    · exact absurd h (by simp)
  · exact absurd h (by simp)

/-- Base64-shaped strings contain no brace. -/
theorem b64Shaped_no_brace (ms : List Nat) (h : b64Shaped ms = true) : ¬ (123 ∈ ms) := by
  intro hmem
  unfold b64Shaped at h
  split at h
  · have := List.all_eq_true.mp h 123 hmem
    simp [isB64Char] at this
  · exact absurd h (by simp)

/-- On base64-shaped input, `merge_user_metadata` always fails. -/
theorem merge_b64Shaped_fails (m : XpakMetadata) (ms : List Nat)
    (h : b64Shaped ms = true) : merge_user_metadata m ms = .error .metadataErr := by
  unfold merge_user_metadata
  split
  · rename_i kvs hkvs
    exact absurd (jsonParse_obj_brace ms kvs hkvs) (b64Shaped_no_brace ms h)
  · rfl
  · rfl

/-- Dropping the 16+L header bytes of a well-formed archive yields its data
region. -/
theorem drop_header (L : Nat) (mb data : List Nat) (hlen : mb.length = L) :
    (MAGIC ++ (u32le L ++ (mb ++ (METAEND ++ data)))).drop (16 + L) = data := by
  have h1 : MAGIC ++ (u32le L ++ (mb ++ (METAEND ++ data))) =
      (MAGIC ++ u32le L ++ mb ++ METAEND) ++ data := by simp [List.append_assoc]
  have h2 : (MAGIC ++ u32le L ++ mb ++ METAEND).length = 16 + L := by
    simp [MAGIC, METAEND, u32le, hlen]
    omega
  rw [h1, List.drop_left' h2]

/-! Section: Claim theorems -/

/-- Claim C1: for every well-formed archive, `update_metadata` with
`regenerateAll = false` (any new description, any user metadata) that
succeeds produces an archive whose data region — the FileCount field and all
FileRecords, i.e. every byte after the end marker — is bit-identical to the
original's; only the metadata section's length and content change. -/
theorem c1_update_metadata_frame (L : Nat) (mb data : List Nat)
    (d u : Option (List Nat)) (now : Nat) (effs : List UEff) (out : List Nat)
    (hlen : mb.length = L) (hL : L < 4294967296)
    (hrun : update_metadata (MAGIC ++ u32le L ++ mb ++ METAEND ++ data) d u false now =
      (effs, .ok out)) :
    ∃ nm, out = MAGIC ++ u32le nm.length ++ nm ++ METAEND ++ data := by
  subst hlen
  have hassoc : MAGIC ++ u32le mb.length ++ mb ++ METAEND ++ data =
      MAGIC ++ (u32le mb.length ++ (mb ++ (METAEND ++ data))) := by
    simp [List.append_assoc]
  rw [hassoc] at hrun
  unfold update_metadata at hrun
  simp only [readBytes_magic, readU32_u32le, Nat.mod_eq_of_lt hL,
    readBytes_exact mb _ rfl, readBytes_metaend, if_false, Bool.false_eq_true,
    ite_true, ite_false] at hrun
  rw [drop_header mb.length mb data rfl] at hrun
  simp only [if_neg (by simp : ¬ (MAGIC ≠ MAGIC)),
    if_neg (by simp : ¬ (METAEND ≠ METAEND))] at hrun
  split at hrun
  · simp at hrun
  · rename_i m0 hm0
    split at hrun
    · simp at hrun
    · rename_i m2 hm2
      refine ⟨encodeMeta m2, ?_⟩
      have hout := congrArg Prod.snd hrun
      simp only at hout
      exact (Except.ok.inj hout).symm

/-- Witness for C1: a concrete well-formed archive whose metadata is updated
with a new description; the data region `[0,0,0,0]` survives verbatim. -/
theorem c1_update_metadata_frame_witness :
    ∃ effs out, update_metadata
        (MAGIC ++ u32le (encodeMeta (XpakMetadata.new 0 0 0)).length ++
          encodeMeta (XpakMetadata.new 0 0 0) ++ METAEND ++ [0, 0, 0, 0])
        (some [104]) none false 5 = (effs, .ok out) ∧
      ∃ nm, out = MAGIC ++ u32le nm.length ++ nm ++ METAEND ++ [0, 0, 0, 0] := by
  refine ⟨_, _, rfl, ?_⟩
  exact c1_update_metadata_frame (encodeMeta (XpakMetadata.new 0 0 0)).length
    (encodeMeta (XpakMetadata.new 0 0 0)) [0, 0, 0, 0] (some [104]) none 5 _ _
    rfl (by decide) rfl

/-- The metadata struct packed for a single file `a` of 2^32 bytes. -/
def c2meta : XpakMetadata :=
  { version := cargoVersion
    format_version := formatVersion13
    created_at := 0
    files_count := 1
    total_size := 4294967296
    description := none
    common := []
    files := [⟨[97], 4294967296⟩] }

/-- The archive produced by packing a single file `a` with content `c`. -/
def c2archiveOf (c : List Nat) : List Nat :=
  MAGIC ++ u32le (encodeMeta c2meta).length ++ encodeMeta c2meta ++ METAEND ++
    u32le 1 ++ recordsBytes [([97], c)]

theorem readBytes_zero (bs : List Nat) : readBytes 0 bs = some ([], bs) := by
  simp [readBytes]

/-- Packing one 2^32-byte file succeeds — with the content-length field
truncated to zero — and unpacking the result materializes `a` as an *empty*
file: the round trip loses every byte. -/
theorem c2_roundtrip_fails_par (c : List Nat) (hc : c.length = 4294967296) :
    pack_files [([97], c)] false none none 0 (fun _ => true) = .ok (c2archiveOf c) ∧
    effWrites (unpack_files (c2archiveOf c) none (fun _ => true)).1 = [([97], [])] ∧
    (unpack_files (c2archiveOf c) none (fun _ => true)).2 = .ok 1 := by
  have hm : packMetaStruct [([97], c)] false none 0 = c2meta := by
    simp [packMetaStruct, c2meta, sumSizes, normSlash, entryPath, hc]
  have hmod : (encodeMeta c2meta).length % 4294967296 = (encodeMeta c2meta).length :=
    Nat.mod_eq_of_lt (by decide)
  have hdec : decodeMeta (encodeMeta c2meta) = some c2meta := by decide
  have h97 : ∀ X : List Nat, readBytes 1 ([97] ++ X) = some ([97], X) :=
    fun X => readBytes_exact [97] X rfl
  have hu97 : validUtf8 [97] = true := by decide
  have hc0 : c.length % 4294967296 = 0 := by rw [hc]
  have hpack : pack_files [([97], c)] false none none 0 (fun _ => true) =
      .ok (c2archiveOf c) := by
    unfold pack_files
    simp only [packValidate, packedMeta, hm, packBody_true]
    unfold c2archiveOf
    simp [recordsBytes, entryPath]
  refine ⟨hpack, ?_, ?_⟩ <;>
  · have hassoc : c2archiveOf c =
        MAGIC ++ (u32le (encodeMeta c2meta).length ++ (encodeMeta c2meta ++ (METAEND ++
          (u32le 1 ++ (u32le 1 ++ ([97] ++ (u32le c.length ++ (c ++ [])))))))) := by
      unfold c2archiveOf
      simp [recordsBytes, recordBytes, List.append_assoc]
    rw [hassoc]
    unfold unpack_files
    simp only [readBytes_magic, readU32_u32le, hmod, readBytes_exact (encodeMeta c2meta) _ rfl,
      readBytes_metaend, hdec, Nat.mod_eq_of_lt (by decide : (1 : Nat) < 4294967296)]
    simp only [c2meta, unpackLoop, selMatch, BUFFER_SIZE]
    simp [readU32_u32le, hc0, hu97, readBytes_zero, effWrites, h97,
      (show ∀ X : List Nat, readBytes 1 (97 :: X) = some ([97], X) from
        fun X => readBytes_exact [97] X rfl)]

/-- Claim C2, counterexample: packing a directory containing one regular file
`a` of exactly 2^32 zero bytes succeeds, yet unpacking the archive into an
empty target writes `a` as an *empty* file — the round trip does not
reproduce the input's bytes, refuting the claim as universally stated. -/
theorem c2_roundtrip_cex :
    pack_files [([97], List.replicate 4294967296 0)] false none none 0 (fun _ => true) =
      .ok (c2archiveOf (List.replicate 4294967296 0)) ∧
    effWrites (unpack_files (c2archiveOf (List.replicate 4294967296 0)) none
      (fun _ => true)).1 = [([97], [])] ∧
    [([97], ([] : List Nat))] ≠ [([97], List.replicate 4294967296 0)] := by
  have h := c2_roundtrip_fails_par (List.replicate 4294967296 0)
    (by rw [List.length_replicate])
  refine ⟨h.1, h.2.1, ?_⟩
  intro hcontr
  have h2 : ([97], ([] : List Nat)) = ([97], List.replicate 4294967296 0) :=
    (List.cons.inj hcontr).1
  have h3 : ([] : List Nat) = List.replicate 4294967296 0 := congrArg Prod.snd h2
  have h4 := congrArg List.length h3
  simp only [List.length_nil, List.length_replicate] at h4
  exact absurd h4 (by decide)

/-- Claim C2 (amended): for every directory of regular files whose individual
sizes, path lengths and file count fit in 32 bits (and whose serialized
metadata block does too), packing with `flatten = false` and no cancellation
and then unpacking into an empty target reproduces every file's exact byte
content at its exact relative path, and reports the full file count. -/
theorem c2_pack_unpack_roundtrip (files : List (List Nat × List Nat))
    (desc umeta : Option (List Nat)) (now : Nat) (A : List Nat) (m1 : XpakMetadata)
    (hgood : goodRecords files) (hcnt : files.length < 4294967296)
    (hm1 : packedMeta files false umeta now = .ok m1)
    (hL : (encodeMeta m1).length < 4294967296)
    (hpack : pack_files files false desc umeta now (fun _ => true) = .ok A) :
    effWrites (unpack_files A none (fun _ => true)).1 = files ∧
    (unpack_files A none (fun _ => true)).2 = .ok files.length := by
  obtain ⟨m1', hm1', hshape⟩ := pack_files_ok files false desc umeta now _ A hpack
  rw [hm1] at hm1'
  obtain rfl : m1 = m1' := Except.ok.inj hm1'
  have hrec : (files.map (fun f => recordBytes (entryPath false f.1, f.2))).flatten =
      recordsBytes files := by
    simp [recordsBytes, entryPath]
  rw [hrec] at hshape
  obtain ⟨hb1, hb2, hb3⟩ := packedMeta_bounds files false umeta now m1 hgood hcnt hm1
  have hfc : m1.files_count = files.length := by
    obtain ⟨h1, _, _, _, _⟩ := packedMeta_fields files false umeta now m1 hm1
    rw [h1, Nat.mod_eq_of_lt hcnt]
  subst hshape
  rw [unpack_wf files m1 none hgood hcnt hfc hb1 hb2 hb3 hL]
  have hfilter : List.filter (fun f => selMatch none f.1) files = files := by
    simp [selMatch]
  constructor
  · rw [hfilter, effWrites_append, effWrites_flatMap]
    simp [effWrites]
  · rw [hfilter]

/-- Witness for the amended C2 at a one-file directory. -/
theorem c2_pack_unpack_roundtrip_witness :
    goodRecords [([97], [120])] ∧ [([97], [120])].length < 4294967296 ∧
    ∃ m1 A, packedMeta [([97], [120])] false none 0 = Except.ok m1 ∧
      (encodeMeta m1).length < 4294967296 ∧
      pack_files [([97], [120])] false none none 0 (fun _ => true) = Except.ok A ∧
      effWrites (unpack_files A none (fun _ => true)).1 = [([97], [120])] := by
  refine ⟨by decide, by decide, _, _, rfl, by decide, rfl, ?_⟩
  exact (c2_pack_unpack_roundtrip [([97], [120])] none none 0 _ _
    (by decide) (by decide) rfl (by decide) rfl).1

/-- Decode the metadata section (region 2) of an archive. -/
def decodeMetaSection (bs : List Nat) : Option XpakMetadata :=
  match readBytes 4 bs with
  | some (_, s1) =>
    match readU32 s1 with
    | some (len, s2) =>
      match readBytes len s2 with
      | some (mb, _) => decodeMeta mb
      | none => none
    | none => none
  | none => none

/-- A stale metadata header claiming 99 files and 999 total bytes. -/
def c3meta : XpakMetadata :=
  { version := cargoVersion
    format_version := formatVersion13
    created_at := 0
    files_count := 99
    total_size := 999
    description := none
    common := []
    files := [] }

/-- An archive with a stale header and exactly 3 files `a`, `b`, `c` of
sizes 10, 20 and 30 bytes. -/
def c3archive : List Nat :=
  MAGIC ++ u32le (encodeMeta c3meta).length ++ encodeMeta c3meta ++ METAEND ++
    u32le 3 ++ recordsBytes
      [([97], List.replicate 10 0), ([98], List.replicate 20 0), ([99], List.replicate 30 0)]

/-- Claim C3 (code bug): `update_metadata` with `regenerateAll = true` on an
archive holding 3 files of sizes {10, 20, 30} does *not* rebuild
`files_count = 3` and `total_size = 60`: its walk starts at the FileCount
field itself (offset `8 + meta_len + 8`, not after the count) and reads an
8-byte size field although the writer emits 4-byte content lengths, so it
mis-parses the region into a single garbage entry with `files_count = 1`,
`total_size = 680192` and a path of bytes `[1, 0, 0]`. -/
theorem c3_regenerate_all_walk_bug :
    ((update_metadata c3archive none none true 7).2.toOption.bind decodeMetaSection).map
        (fun m => (m.files_count, m.total_size, m.files)) =
      some (1, 680192, [⟨[1, 0, 0], 680192⟩]) ∧
    ((1 : Nat), (680192 : Nat)) ≠ ((3 : Nat), (60 : Nat)) := by
  constructor
  · decide
  · decide

/-- A consistent one-file metadata header for the listing claims. -/
def c4meta : XpakMetadata :=
  { version := cargoVersion
    format_version := formatVersion13
    created_at := 0
    files_count := 1
    total_size := 1
    description := none
    common := []
    files := [⟨[97], 1⟩] }

/-- A well-formed archive with a single one-byte file `a`. -/
def c4archive : List Nat :=
  MAGIC ++ u32le (encodeMeta c4meta).length ++ encodeMeta c4meta ++ METAEND ++
    u32le 1 ++ recordsBytes [([97], [120])]

/-- Claim C4, counterexample: on a concrete well-formed archive the two listing
modes report the same `(path, size)` table but *different* totals — fast
mode's headline total adds the metadata length to `metadata.total_size`. -/
theorem c4_list_totals_cex :
    (list_files c4archive false).toOption.map Prod.fst =
      (list_files c4archive true).toOption.map Prod.fst ∧
    (list_files c4archive false).toOption.map Prod.snd ≠
      (list_files c4archive true).toOption.map Prod.snd := by
  constructor
  · decide
  · decide

/-- Claim C4 (amended): on every well-formed archive the two listing modes
report identical `(path, size)` sequences; the exhaustive total is computed
purely from the on-wire content lengths (it equals their sum, regardless of
`metadata.total_size`); fast mode's headline total is
`metadata.total_size + meta_len`, which exceeds the exhaustive total by the
(always nonzero) metadata length whenever the header is consistent. -/
theorem c4_list_modes (files : List (List Nat × List Nat)) (m : XpakMetadata)
    (hgood : goodRecords files) (hcnt : files.length < 4294967296)
    (hb1 : m.files_count < 4294967296) (hb2 : m.total_size < 18446744073709551616)
    (hb3 : ∀ f ∈ m.files, f.size < 18446744073709551616)
    (hL : (encodeMeta m).length < 4294967296)
    (hfiles : m.files = files.map (fun f => ⟨f.1, f.2.length⟩)) :
    list_files (MAGIC ++ u32le (encodeMeta m).length ++ encodeMeta m ++ METAEND ++
        u32le files.length ++ recordsBytes files) false =
      .ok (files.map (fun f => (f.1, f.2.length)), m.total_size + (encodeMeta m).length) ∧
    list_files (MAGIC ++ u32le (encodeMeta m).length ++ encodeMeta m ++ METAEND ++
        u32le files.length ++ recordsBytes files) true =
      .ok (files.map (fun f => (f.1, f.2.length)), sumSizes files) ∧
    0 < (encodeMeta m).length := by
  refine ⟨?_, ?_, encodeMeta_length_pos m⟩
  · have hassoc : MAGIC ++ u32le (encodeMeta m).length ++ encodeMeta m ++ METAEND ++
        u32le files.length ++ recordsBytes files =
        MAGIC ++ u32le (encodeMeta m).length ++ encodeMeta m ++
          (METAEND ++ (u32le files.length ++ recordsBytes files)) := by
      simp [List.append_assoc]
    rw [hassoc, listFast_wf _ m hb1 hb2 hb3 hL, hfiles]
    simp
  · have hfull : list_files (MAGIC ++ u32le (encodeMeta m).length ++ encodeMeta m ++
        METAEND ++ u32le files.length ++ recordsBytes files) true =
        listFull (MAGIC ++ u32le (encodeMeta m).length ++ encodeMeta m ++
          METAEND ++ u32le files.length ++ recordsBytes files) := rfl
    rw [hfull]
    exact listFull_wf files m hgood hcnt hL

/-- Witness for the amended C4 on the concrete one-file archive. -/
theorem c4_list_modes_witness :
    goodRecords [([97], [120])] ∧ (encodeMeta c4meta).length < 4294967296 ∧
    list_files c4archive false =
      .ok ([([97], 1)], c4meta.total_size + (encodeMeta c4meta).length) ∧
    list_files c4archive true = .ok ([([97], 1)], 1) := by
  have h := c4_list_modes [([97], [120])] c4meta (by decide) (by decide) (by decide)
    (by decide) (by decide) (by decide) (by decide)
  exact ⟨by decide, by decide, h.1, h.2.1⟩

/-- Claim C5 (code bug): the description field written into the archive comes
from the *userMetadataJSON* argument, not the description argument
(pak.rs:100 sets `description: metadata.map(..)` and the struct built at
pak.rs:46-51 from the real description argument is discarded).  Concretely:
packing with `description = Some "hi"` and no metadata stores description
`None`; packing with no description and metadata `{"k":1}` stores the raw
metadata text as the description. -/
theorem c5_description_from_metadata_arg :
    ((pack_files [([97], [120])] false (some [104, 105]) none 0 (fun _ => true)).toOption.bind
        decodeMetaSection).map (fun m => m.description) = some none ∧
    ((pack_files [([97], [120])] false none (some [123, 34, 107, 34, 58, 49, 125]) 0
        (fun _ => true)).toOption.bind decodeMetaSection).map (fun m => m.description) =
      some (some [123, 34, 107, 34, 58, 49, 125]) := by
  constructor
  · decide
  · decide

/-- Does the string parse as a top-level JSON object? -/
def isObjParse (s : List Nat) : Bool :=
  match jsonParse s with
  | some (.obj _) => true
  | _ => false

/-- `merge_user_metadata` fails whenever the input is not a top-level JSON
object. -/
theorem merge_not_obj_fails (m : XpakMetadata) (s : List Nat)
    (h : isObjParse s = false) : merge_user_metadata m s = .error .metadataErr := by
  unfold isObjParse at h
  unfold merge_user_metadata
  cases hj : jsonParse s with
  | none => simp [hj]
  | some v =>
    cases v with
    | obj kvs => rw [hj] at h; simp at h
    | null => simp [hj]
    | boolv b => simp [hj]
    | num t => simp [hj]
    | str t => simp [hj]
    | arr xs => simp [hj]

/-- The pack-time validation block rejects every base64-shaped metadata
string that fails to decode or whose decoded form is not a JSON object. -/
theorem packValidate_err (files : List (List Nat × List Nat))
    (d : Option (List Nat)) (now : Nat) (ms : List Nat)
    (hshape : b64Shaped ms = true)
    (hbad : (match base64Decode ms with
             | none => true
             | some dec => !(validUtf8 dec && isObjParse dec)) = true) :
    packValidate files d (some ms) now = .error XErr.metadataErr ∨
    packValidate files d (some ms) now = .error XErr.badUtf8Meta := by
  unfold packValidate decodeUserMeta
  dsimp only
  rw [if_pos hshape]
  cases hb : base64Decode ms with
  | none =>
    left
    cases d <;> simp [merge_b64Shaped_fails _ ms hshape]
  | some dec =>
    rw [hb] at hbad
    cases hv : validUtf8 dec with
    | false =>
      right
      cases d <;> simp [hv]
    | true =>
      have hobj : isObjParse dec = false := by
        dsimp only at hbad
        rw [hv] at hbad
        simpa using hbad
      left
      cases d <;> simp [hv, merge_not_obj_fails _ dec hobj]

/-- Claim C6: every base64-shaped userMetadataJSON that fails to decode, whose
decoded bytes are not UTF-8, or whose decoded text is not a JSON object, is
rejected by pack with a metadata error; the raw non-JSON text is never
accepted as valid metadata (the fallback to the raw string always fails
because a base64-shaped string cannot contain the `{` an object needs). -/
theorem c6_pack_rejects_bad_b64 (files : List (List Nat × List Nat)) (flat : Bool)
    (d : Option (List Nat)) (now : Nat) (run : Nat → Bool) (ms : List Nat)
    (hshape : b64Shaped ms = true)
    (hbad : (match base64Decode ms with
             | none => true
             | some dec => !(validUtf8 dec && isObjParse dec)) = true) :
    ∃ e, pack_files files flat d (some ms) now run = .error e ∧
      (e = XErr.metadataErr ∨ e = XErr.badUtf8Meta) := by
  rcases packValidate_err files d now ms hshape hbad with h | h
  · refine ⟨XErr.metadataErr, ?_, Or.inl rfl⟩
    unfold pack_files
    rw [h]
  · refine ⟨XErr.badUtf8Meta, ?_, Or.inr rfl⟩
    unfold pack_files
    rw [h]

/-- Witness for C6: the base64-shaped string `====` fails to decode and pack
rejects it. -/
theorem c6_pack_rejects_bad_b64_witness :
    b64Shaped [61, 61, 61, 61] = true ∧
    (match base64Decode [61, 61, 61, 61] with
     | none => true
     | some dec => !(validUtf8 dec && isObjParse dec)) = true ∧
    ∃ e, pack_files [] false none (some [61, 61, 61, 61]) 0 (fun _ => true) = .error e ∧
      (e = XErr.metadataErr ∨ e = XErr.badUtf8Meta) := by
  refine ⟨by decide, by decide, ?_⟩
  exact c6_pack_rejects_bad_b64 [] false none 0 (fun _ => true) [61, 61, 61, 61]
    (by decide) (by decide)

/-- A version-1.0 metadata header. -/
def c7meta : XpakMetadata :=
  { version := cargoVersion
    format_version := [49, 46, 48]
    created_at := 0
    files_count := 1
    total_size := 1
    description := none
    common := []
    files := [⟨[97], 1⟩] }

/-- A version-1.0-style archive: magic, metadata, then *no end marker* —
FileCount and the records follow the JSON directly. -/
def c7archive : List Nat :=
  MAGIC ++ u32le (encodeMeta c7meta).length ++ encodeMeta c7meta ++
    u32le 1 ++ recordsBytes [([97], [120])]

/-- Claim C7, counterexample: a version-1.0 archive without the end marker is
*rejected* with the bad-end-marker error by unpack, exhaustive list and
update — the read operations do not branch on `format_version` and never
accept a markerless archive. -/
theorem c7_v10_rejected_cex :
    decodeMetaSection c7archive = some c7meta ∧
    c7meta.format_version = [49, 46, 48] ∧
    (unpack_files c7archive none (fun _ => true)).2 = .error .badEnd ∧
    (update_metadata c7archive none none false 0).2 = .error .badEnd ∧
    list_files c7archive true = .error .badEnd := by
  refine ⟨by decide, by decide, by decide, by decide, by decide⟩

/-- Claim C7 (amended): whenever the 8 bytes after the metadata block mismatch
the end-marker tag, unpack, update and exhaustive listing fail with the
bad-end-marker error *regardless of the archive's `format_version`*; only
the Structure Inspector branches on the version, recording the invalid
marker in its report (flagging versions 1.0/1.1/1.2 as
"marker unsupported" rather than corruption) without failing. -/
theorem c7_end_marker_unconditional (L : Nat) (mb bad8 rest : List Nat) (m : XpakMetadata)
    (d u : Option (List Nat)) (al : Bool) (now : Nat) (sel : Option (List (List Nat)))
    (run : Nat → Bool)
    (hlen : mb.length = L) (hL : L < 4294967296)
    (h8 : bad8.length = 8) (hne : bad8 ≠ METAEND)
    (hm : decodeMeta mb = some m) :
    (unpack_files (MAGIC ++ u32le L ++ mb ++ bad8 ++ rest) sel run).2 = .error .badEnd ∧
    update_metadata (MAGIC ++ u32le L ++ mb ++ bad8 ++ rest) d u al now =
      ([], .error .badEnd) ∧
    list_files (MAGIC ++ u32le L ++ mb ++ bad8 ++ rest) true = .error .badEnd ∧
    view_structure (MAGIC ++ u32le L ++ mb ++ bad8 ++ rest) =
      .ok { magicValid := true, metaLen := L, formatVersion := m.format_version,
            filesCount := m.files_count, totalSize := m.total_size,
            description := m.description, endValid := false,
            endLegacy := legacyVersions.contains m.format_version } := by
  subst hlen
  have hassoc : MAGIC ++ u32le mb.length ++ mb ++ bad8 ++ rest =
      MAGIC ++ (u32le mb.length ++ (mb ++ (bad8 ++ rest))) := by
    simp [List.append_assoc]
  rw [hassoc]
  have hrd8 : readBytes 8 (bad8 ++ rest) = some (bad8, rest) := readBytes_exact bad8 rest h8
  have hmagic : ¬ (MAGIC ≠ MAGIC) := by simp
  refine ⟨?_, ?_, ?_, ?_⟩
  · unfold unpack_files
    simp only [readBytes_magic, readU32_u32le, Nat.mod_eq_of_lt hL,
      readBytes_exact mb _ rfl, hrd8]
    rw [if_neg hmagic, if_pos hne]
  · unfold update_metadata
    simp only [readBytes_magic, readU32_u32le, Nat.mod_eq_of_lt hL,
      readBytes_exact mb _ rfl, hrd8]
    rw [if_neg hmagic, if_pos hne]
  · have hful : list_files (MAGIC ++ (u32le mb.length ++ (mb ++ (bad8 ++ rest)))) true =
        listFull (MAGIC ++ (u32le mb.length ++ (mb ++ (bad8 ++ rest)))) := rfl
    rw [hful]
    unfold listFull
    have hpos : 0 < mb.length := by
      rcases mb with _ | ⟨b, bs⟩
      · exact absurd hm (by simp [decodeMeta, decBytes, decNat])
      · simp
    simp only [readBytes_magic, readU32_u32le, Nat.mod_eq_of_lt hL, List.drop_left, hrd8]
    rw [if_neg hmagic, if_pos hpos, if_pos hne]
  · unfold view_structure
    simp only [readBytes_magic, readU32_u32le, Nat.mod_eq_of_lt hL,
      readBytes_exact mb _ rfl, hm, hrd8]
    simp [hne]

/-- Witness for the amended C7 on a concrete markerless archive. -/
theorem c7_end_marker_unconditional_witness :
    decodeMeta (encodeMeta (XpakMetadata.new 0 0 0)) = some (XpakMetadata.new 0 0 0) ∧
    ([0, 0, 0, 0, 0, 0, 0, 0] : List Nat) ≠ METAEND ∧
    (unpack_files (MAGIC ++ u32le (encodeMeta (XpakMetadata.new 0 0 0)).length ++
        encodeMeta (XpakMetadata.new 0 0 0) ++ [0, 0, 0, 0, 0, 0, 0, 0] ++ []) none
        (fun _ => true)).2 = .error .badEnd := by
  refine ⟨by decide, by decide, ?_⟩
  exact (c7_end_marker_unconditional (encodeMeta (XpakMetadata.new 0 0 0)).length
    (encodeMeta (XpakMetadata.new 0 0 0)) [0, 0, 0, 0, 0, 0, 0, 0] []
    (XpakMetadata.new 0 0 0) none none false 0 none (fun _ => true)
    rfl (by decide) (by decide) (by decide) (by decide)).1

/-- Claim C8: on a well-formed archive, unpack materializes exactly the
records whose path is an exact member of `selectedPaths` — with their exact
content bytes — skips every other record, and decodes all subsequent
records correctly (the full record list is walked and the run succeeds with
the count of matches). -/
theorem c8_selective_unpack (files : List (List Nat × List Nat)) (m : XpakMetadata)
    (sel : List (List Nat))
    (hgood : goodRecords files) (hcnt : files.length < 4294967296)
    (hfc : m.files_count = files.length)
    (hb1 : m.files_count < 4294967296) (hb2 : m.total_size < 18446744073709551616)
    (hb3 : ∀ f ∈ m.files, f.size < 18446744073709551616)
    (hL : (encodeMeta m).length < 4294967296) :
    effWrites (unpack_files (MAGIC ++ u32le (encodeMeta m).length ++ encodeMeta m ++
        METAEND ++ u32le files.length ++ recordsBytes files) (some sel)
        (fun _ => true)).1 =
      files.filter (fun f => sel.any (fun s => f.1 = s)) ∧
    (unpack_files (MAGIC ++ u32le (encodeMeta m).length ++ encodeMeta m ++
        METAEND ++ u32le files.length ++ recordsBytes files) (some sel)
        (fun _ => true)).2 =
      .ok ((files.filter (fun f => sel.any (fun s => f.1 = s))).length) := by
  rw [unpack_wf files m (some sel) hgood hcnt hfc hb1 hb2 hb3 hL]
  constructor
  · rw [effWrites_append, effWrites_flatMap]
    simp [effWrites, selMatch]
  · simp [selMatch]

/-- The two-file metadata header for the C8 witness. -/
def c8meta : XpakMetadata :=
  { version := cargoVersion
    format_version := formatVersion13
    created_at := 0
    files_count := 2
    total_size := 2
    description := none
    common := []
    files := [⟨[97], 1⟩, ⟨[98], 1⟩] }

/-- Witness for C8: selecting only path `a` from a two-file archive writes
exactly file `a` and still succeeds past file `b`. -/
theorem c8_selective_unpack_witness :
    goodRecords [([97], [120]), ([98], [121])] ∧
    c8meta.files_count = [([97], [120]), ([98], [121])].length ∧
    effWrites (unpack_files (MAGIC ++ u32le (encodeMeta c8meta).length ++
        encodeMeta c8meta ++ METAEND ++ u32le [([97], [120]), ([98], [121])].length ++
        recordsBytes [([97], [120]), ([98], [121])]) (some [[97]])
        (fun _ => true)).1 = [([97], [120])] := by
  refine ⟨by decide, by decide, ?_⟩
  have h := (c8_selective_unpack [([97], [120]), ([98], [121])] c8meta [[97]]
    (by decide) (by decide) (by decide) (by decide) (by decide) (by decide) (by decide)).1
  exact h

/-- A file whose first four bytes are not the magic tag but which otherwise
carries a parseable metadata block and marker. -/
def c9archive : List Nat :=
  [0, 0, 0, 0] ++ u32le (encodeMeta (XpakMetadata.new 0 0 0)).length ++
    encodeMeta (XpakMetadata.new 0 0 0) ++ METAEND

/-- Claim C9, counterexample: on a bad-magic input, `view_structure` does *not*
fail — it returns a successful report recording `magicValid = false` — and
`unpack_files` has already created the output directory (a side effect)
before failing; both contradict "every read operation fails with a format
error and performs no side effects". -/
theorem c9_bad_magic_cex :
    (view_structure c9archive).toOption.map (fun r => r.magicValid) = some false ∧
    List.take 4 c9archive ≠ MAGIC ∧
    (unpack_files c9archive none (fun _ => true)).1 = [Eff.mkdirRoot] ∧
    (unpack_files c9archive none (fun _ => true)).2 = .error .notMagic := by
  refine ⟨by decide, by decide, by decide, by decide⟩

/-- Claim C9 (amended): on every input whose first 4 bytes are not the magic
tag, list (both modes), display-metadata and update fail with the format
error and perform no filesystem effects; unpack also fails with the format
error but only after creating the (empty) output directory — its sole side
effect; `view_structure` does not fail on the bad magic itself: whenever it
returns a report, that report records the magic as invalid. -/
theorem c9_bad_magic_behavior (b4 rest : List Nat) (d u : Option (List Nat)) (al : Bool)
    (now : Nat) (sel : Option (List (List Nat))) (run : Nat → Bool)
    (h4 : b4.length = 4) (hne : b4 ≠ MAGIC) :
    list_files (b4 ++ rest) false = .error .notMagic ∧
    list_files (b4 ++ rest) true = .error .notMagic ∧
    display_metadata (b4 ++ rest) = .error .notMagic ∧
    update_metadata (b4 ++ rest) d u al now = ([], .error .notMagic) ∧
    unpack_files (b4 ++ rest) sel run = ([Eff.mkdirRoot], .error .notMagic) ∧
    ∀ rep, view_structure (b4 ++ rest) = .ok rep → rep.magicValid = false := by
  have hrd : readBytes 4 (b4 ++ rest) = some (b4, rest) := readBytes_exact b4 rest h4
  refine ⟨?_, ?_, ?_, ?_, ?_, ?_⟩
  · unfold list_files
    rw [if_pos rfl]
    simp only [hrd]
    rw [if_pos hne]
  · have hful : list_files (b4 ++ rest) true = listFull (b4 ++ rest) := rfl
    rw [hful]
    unfold listFull
    simp only [hrd]
    rw [if_pos hne]
  · unfold display_metadata
    simp only [hrd]
    rw [if_pos hne]
  · unfold update_metadata
    simp only [hrd]
    rw [if_pos hne]
  · unfold unpack_files
    simp only [hrd]
    rw [if_pos hne]
  · intro rep h
    unfold view_structure at h
    simp only [hrd] at h
    split at h
    · exact absurd h (by simp)
    · split at h
      · exact absurd h (by simp)
      · split at h
        · exact absurd h (by simp)
        · split at h
          · exact absurd h (by simp)
          · obtain rfl : _ = rep := Except.ok.inj h
            simp [hne]

/-- Witness for the amended C9 on concrete bad-magic bytes. -/
theorem c9_bad_magic_behavior_witness :
    ([1, 2, 3, 4] : List Nat).length = 4 ∧ ([1, 2, 3, 4] : List Nat) ≠ MAGIC ∧
    list_files ([1, 2, 3, 4] ++ [9, 9]) false = .error .notMagic ∧
    unpack_files ([1, 2, 3, 4] ++ [9, 9]) none (fun _ => true) =
      ([Eff.mkdirRoot], .error .notMagic) := by
  refine ⟨by decide, by decide, ?_, ?_⟩
  · exact (c9_bad_magic_behavior [1, 2, 3, 4] [9, 9] none none false 0 none
      (fun _ => true) (by decide) (by decide)).1
  · exact (c9_bad_magic_behavior [1, 2, 3, 4] [9, 9] none none false 0 none
      (fun _ => true) (by decide) (by decide)).2.2.2.2.1

/-- Each byte of `u32le` depends only on the value modulo 2^32. -/
theorem u32le_mod (n : Nat) : u32le (n % 4294967296) = u32le n := by
  unfold u32le
  have h1 : n % 4294967296 % 256 = n % 256 := by omega
  have h2 : n % 4294967296 / 256 % 256 = n / 256 % 256 := by omega
  have h3 : n % 4294967296 / 65536 % 256 = n / 65536 % 256 := by omega
  have h4 : n % 4294967296 / 16777216 % 256 = n / 16777216 % 256 := by omega
  rw [h1, h2, h3, h4]

/-- Claim C10: packing a file of 2^32 bytes or more succeeds — it is not
rejected — and writes the record's 4-byte content-length field as the size
modulo 2^32 (the bytes of `u32le size` coincide with those of
`u32le (size % 2^32)`, and the truncated value differs from the real size)
while still copying every content byte into the record. -/
theorem c10_pack_truncates (p c : List Nat) (d : Option (List Nat)) (now : Nat)
    (hc : 4294967296 ≤ c.length) :
    pack_files [(p, c)] false d none now (fun _ => true) =
      .ok (MAGIC ++ u32le (encodeMeta (packMetaStruct [(p, c)] false none now)).length ++
           encodeMeta (packMetaStruct [(p, c)] false none now) ++ METAEND ++ u32le 1 ++
           (u32le p.length ++ p ++ u32le c.length ++ c)) ∧
    u32le c.length = u32le (c.length % 4294967296) ∧
    c.length % 4294967296 ≠ c.length := by
  refine ⟨?_, (u32le_mod c.length).symm, by omega⟩
  unfold pack_files
  simp only [packValidate, packedMeta, packBody_true]
  simp [recordBytes, entryPath, List.append_assoc]

/-- Witness for C10 at a concrete 2^32-byte file. -/
theorem c10_pack_truncates_witness :
    4294967296 ≤ (List.replicate 4294967296 0).length ∧
    (pack_files [([97], List.replicate 4294967296 0)] false none none 0 (fun _ => true) =
      .ok (MAGIC ++
        u32le (encodeMeta (packMetaStruct [([97], List.replicate 4294967296 0)] false
          none 0)).length ++
        encodeMeta (packMetaStruct [([97], List.replicate 4294967296 0)] false none 0) ++
        METAEND ++ u32le 1 ++
        (u32le ([97] : List Nat).length ++ [97] ++
          u32le (List.replicate 4294967296 0).length ++ List.replicate 4294967296 0)) ∧
      u32le (List.replicate 4294967296 0).length =
        u32le ((List.replicate 4294967296 0).length % 4294967296) ∧
      (List.replicate 4294967296 0).length % 4294967296 ≠
        (List.replicate 4294967296 0).length) := by
  have hlen : 4294967296 ≤ (List.replicate 4294967296 0 : List Nat).length := by
    rw [List.length_replicate]
  exact ⟨hlen, c10_pack_truncates [97] (List.replicate 4294967296 0) none 0 hlen⟩

end Xpak
